import Mathlib

/-!
# Verification of the Transcriber pipeline routes

This development gives a shallow embedding, in Lean 4, of the algorithmic core
of the API routes of the Transcriber web application:

* the video identifier resolver (`extractVideoId`, `extractYouTubeVideoId`),
* the heuristic language detector (`detectLanguage`),
* the text chunker used for remote translation (`splitText`),
* the remote-provider translation orchestration (`translateWithGoogle`),
* the progress tracker (`updateProgress`) and the transcription result cache,
* the cleanup endpoint, the download endpoint, and the local-model translation
  endpoint.

JavaScript strings are modelled as `String`/`List Char`; JavaScript regular
expressions are compiled, by hand, to explicit scanning functions that follow
the backtracking semantics of the concrete regex literal appearing in the
source (greedy/lazy quantifier order, alternation order, leftmost match).
External effects (the filesystem, child processes, HTTP endpoints, the clock
and the random generator) are passed in as explicit oracle parameters, so each
route handler becomes a total function from its inputs and oracles to its
response and updated state.
-/

set_option maxHeartbeats 1000000

namespace Transcriber

/-! ## Generic JavaScript string primitives -/

/-- Word character class `\w` of JavaScript regexes: `[A-Za-z0-9_]`. -/
def jsWordChar (c : Char) : Bool :=
  ('a' ≤ c ∧ c ≤ 'z') ∨ ('A' ≤ c ∧ c ≤ 'Z') ∨ ('0' ≤ c ∧ c ≤ '9') ∨ c = '_'

/-- ASCII digit class `\d` of JavaScript regexes. -/
def jsDigit (c : Char) : Bool := '0' ≤ c ∧ c ≤ '9'

/-- Whitespace class `\s` of JavaScript regexes: ASCII whitespace, NBSP, the
Unicode space separators, the line/paragraph separators and the BOM. -/
def jsSpace (c : Char) : Bool :=
  c = ' ' ∨ c = '\t' ∨ c = '\n' ∨ c = '\x0b' ∨ c = '\x0c' ∨ c = '\r' ∨
  c = ' ' ∨ c = ' ' ∨ (' ' ≤ c ∧ c ≤ ' ') ∨
  c = ' ' ∨ c = ' ' ∨ c = ' ' ∨ c = ' ' ∨ c = '　' ∨
  c = '﻿'

/-- Line terminators, the characters NOT matched by `.` in a JavaScript regex
without the `s` flag, and the positions at which a multiline `$` matches. -/
def jsLineTerm (c : Char) : Bool :=
  c = '\n' ∨ c = '\r' ∨ c = ' ' ∨ c = ' '

/-- Character matched by `.` in a JavaScript regex (no `s` flag). -/
def jsDot (c : Char) : Bool := ¬ jsLineTerm c

/-- Case folding used for the `i` regex flag, covering the character ranges
occurring in this code base: ASCII letters and Cyrillic capitals (Arabic and
Hebrew have no case). -/
def jsToLower (c : Char) : Char :=
  if 'A' ≤ c ∧ c ≤ 'Z' then Char.ofNat (c.toNat + 32)
  else if 'А' ≤ c ∧ c ≤ 'Я' then Char.ofNat (c.toNat + 32)
  else if c = 'Ё' then 'ё'
  else c

/-- Does list `l` start with the list `p`? -/
def startsWithL : List Char → List Char → Bool
  | [], _ => true
  | _ :: _, [] => false
  | p :: ps, c :: cs => p = c ∧ startsWithL ps cs

/-- Does `p` occur at position `i` of `l`? -/
def occursAt (p l : List Char) (i : Nat) : Bool := startsWithL p (l.drop i)

/-- JavaScript `String.prototype.includes`: substring occurrence. -/
def includesL (l p : List Char) : Bool :=
  (List.range (l.length + 1)).any fun i => occursAt p l i

/-- JavaScript `String.prototype.includes` on `String`. -/
def jsIncludes (s sub : String) : Bool := includesL s.data sub.data

/-- JavaScript `String.prototype.endsWith` (suffix test). -/
def endsWithL (l p : List Char) : Bool :=
  p.length ≤ l.length ∧ l.drop (l.length - p.length) = p

/-- JavaScript `String.prototype.endsWith` on `String`. -/
def jsEndsWith (s suffix : String) : Bool := endsWithL s.data suffix.data

/-- Split a character list at every occurrence of the character `sep`
(JavaScript `String.prototype.split` with a single-character separator). -/
def splitOnCharL (sep : Char) : List Char → List (List Char)
  | [] => [[]]
  | c :: cs =>
    let r := splitOnCharL sep cs
    if c = sep then [] :: r
    else match r with
      | [] => [[c]]
      | h :: t => (c :: h) :: t

/-- Maximal run of characters satisfying `p` starting at position `i`. -/
def runLengthAt (p : Char → Bool) (l : List Char) (i : Nat) : Nat :=
  ((l.drop i).takeWhile p).length

/-- Character at position `i` satisfies `p` (false when out of range). -/
def charAtSat (p : Char → Bool) (l : List Char) (i : Nat) : Bool :=
  match l.drop i with
  | c :: _ => p c
  | [] => false

/-- JavaScript `trim`: remove `\s` characters from both ends. -/
def jsTrim (l : List Char) : List Char :=
  ((l.dropWhile jsSpace).reverse.dropWhile jsSpace).reverse

/-! ## Association-list model of JavaScript objects and `Map`s

JavaScript object property access / `Map.get` is the first binding of the key;
assignment / `Map.set` overwrites the binding in place (keeping its position)
or appends a fresh binding at the end. -/

/-- Lookup of `k` in an association list (JavaScript property read). -/
def lookupA {α : Type} (m : List (String × α)) (k : String) : Option α :=
  (m.find? fun p => p.1 = k).map (·.2)

/-- Write of `k ↦ v` into an association list (JavaScript property write):
replaces the existing binding in place, or appends a new one. -/
def upsertA {α : Type} (m : List (String × α)) (k : String) (v : α) :
    List (String × α) :=
  if (m.find? fun p => p.1 = k).isSome then
    m.map fun p => if p.1 = k then (k, v) else p
  else m ++ [(k, v)]

/-- Delete `k` from an association list (JavaScript `delete obj[k]`). -/
def deleteA {α : Type} (m : List (String × α)) (k : String) :
    List (String × α) :=
  m.filter fun p => ¬ p.1 = k

/-! ## Language detector (`detectLanguage`, transcription route)

`detectLanguage` scores each language of a fixed table by testing a curated
set of word patterns `/\b<word>\b/i` against the text.  Each pattern is tested
with a non-global `String.prototype.match`, which returns a one-element array
when the pattern occurs (the regexes have no capture groups) and `null`
otherwise, so each pattern contributes `1` or `0` to the score of its language.
The best language is then selected by a fold that starts from `("en", 0)` and
updates only on a strictly greater score. -/

/-- Word-boundary test `\b` at position `i`: the `\w`-status of the character
before `i` differs from the `\w`-status of the character at `i` (out-of-range
counts as non-word). -/
def wordBoundaryAt (l : List Char) (i : Nat) : Bool :=
  (if i = 0 then false else charAtSat jsWordChar l (i - 1)) !=
    charAtSat jsWordChar l i

/-- Match of the regex `/\b<w>\b/i` against `text`. -/
def wordPatternMatch (w : String) (text : String) : Bool :=
  let tl := text.data.map jsToLower
  let wl := w.data.map jsToLower
  (List.range (tl.length + 1)).any fun i =>
    occursAt wl tl i ∧ wordBoundaryAt tl i ∧ wordBoundaryAt tl (i + wl.length)

/-- Contribution of one pattern to a language score:
`(text.match(pattern) || []).length` for a non-global groupless regex is `1`
when the pattern matches and `0` otherwise. -/
def patternScore (w : String) (text : String) : Nat :=
  if wordPatternMatch w text then 1 else 0

/-- The `languagePatterns` table of `detectLanguage`, in object insertion
order. -/
def languagePatterns : List (String × List String) :=
  [("en", ["the", "and", "to", "for", "with", "it"]),
   ("es", ["el", "la", "los", "las", "y", "para", "por"]),
   ("fr", ["le", "la", "les", "et", "pour", "avec", "une"]),
   ("de", ["der", "die", "das", "und", "für", "mit"]),
   ("it", ["il", "la", "i", "le", "e", "per", "con"]),
   ("ru", ["и", "в", "на", "с", "по", "от"]),
   ("ar", ["في", "من", "إلى", "على", "و", "أن"])]

/-- The `scores` record computed by `detectLanguage`, in iteration order. -/
def languageScores (text : String) : List (String × Nat) :=
  languagePatterns.map fun lp => (lp.1, (lp.2.map fun w => patternScore w text).sum)

/-- One step of the selection loop of `detectLanguage`: update the best
`(lang, score)` only on a strictly greater score. -/
def bestStep (acc p : String × Nat) : String × Nat :=
  if p.2 > acc.2 then p else acc

/-- The language detector of the transcription route. -/
def detectLanguage (text : String) : String :=
  ((languageScores text).foldl bestStep ("en", 0)).1

/-- Specification-side view: the maximum of the scores. -/
def maxScoreOf (l : List (String × Nat)) : Nat :=
  l.foldr (fun p m => max p.2 m) 0

/-- Specification-side view: the first entry attaining the maximal score
(defaulting to `"en"` on the empty list). -/
def argmaxFirst (l : List (String × Nat)) : String :=
  match l.find? (fun p => p.2 = maxScoreOf l) with
  | some p => p.1
  | none => "en"

theorem bestStep_snd (acc p : String × Nat) :
    (bestStep acc p).2 = max acc.2 p.2 := by
  unfold bestStep; split <;> omega

theorem foldl_bestStep_snd (l : List (String × Nat)) (acc : String × Nat) :
    (l.foldl bestStep acc).2 = max acc.2 (maxScoreOf l) := by
  induction l generalizing acc with
  | nil => simp [maxScoreOf]
  | cons p t ih =>
    rw [List.foldl_cons, ih]
    have h1 : (bestStep acc p).2 = max acc.2 p.2 := bestStep_snd acc p
    have h2 : maxScoreOf (p :: t) = max p.2 (maxScoreOf t) := rfl
    omega

theorem foldl_bestStep_stays (l : List (String × Nat)) (acc : String × Nat)
    (h : maxScoreOf l ≤ acc.2) : l.foldl bestStep acc = acc := by
  induction l generalizing acc with
  | nil => rfl
  | cons p t ih =>
    have h2 : maxScoreOf (p :: t) = max p.2 (maxScoreOf t) := rfl
    rw [List.foldl_cons]
    have hstep : bestStep acc p = acc := by
      unfold bestStep; rw [if_neg]; omega
    rw [hstep]
    exact ih acc (by omega)

theorem mem_le_maxScoreOf (l : List (String × Nat)) (p : String × Nat)
    (hp : p ∈ l) : p.2 ≤ maxScoreOf l := by
  induction l with
  | nil => cases hp
  | cons q t ih =>
    have h2 : maxScoreOf (q :: t) = max q.2 (maxScoreOf t) := rfl
    rcases List.mem_cons.mp hp with h | h
    · subst h; omega
    · have := ih h; omega

theorem foldl_bestStep_finds (l : List (String × Nat)) :
    ∀ acc : String × Nat, acc.2 < maxScoreOf l →
      ∃ p, l.find? (fun q => q.2 = maxScoreOf l) = some p ∧
        (l.foldl bestStep acc).1 = p.1 := by
  induction l with
  | nil => intro acc hacc; simp [maxScoreOf] at hacc
  | cons p t ih =>
    intro acc hacc
    have hM : maxScoreOf (p :: t) = max p.2 (maxScoreOf t) := rfl
    by_cases hp : maxScoreOf t ≤ p.2
    · have hMp : maxScoreOf (p :: t) = p.2 := by omega
      refine ⟨p, ?_, ?_⟩
      · rw [List.find?]
        simp [hMp]
      · have hstep : bestStep acc p = p := by
          unfold bestStep; rw [if_pos]; omega
        rw [List.foldl_cons, hstep, foldl_bestStep_stays t p hp]
    · push_neg at hp
      have hMt : maxScoreOf (p :: t) = maxScoreOf t := by omega
      have hacc' : (bestStep acc p).2 < maxScoreOf t := by
        have := bestStep_snd acc p; omega
      obtain ⟨q, hq1, hq2⟩ := ih (bestStep acc p) hacc'
      refine ⟨q, ?_, ?_⟩
      · rw [List.find?]
        have hne : ¬ (p.2 = maxScoreOf (p :: t)) := by omega
        simp only [hne, decide_eq_false]
        rw [hMt]
        exact hq1
      · rw [List.foldl_cons]; exact hq2

/-- C5 (counterexample): the claim says a tie for the highest score returns
`"en"`, but on the text `"el le"` the languages `es`, `fr` and `it` all tie
for the maximal score `1` (with `en` scoring `0`) and the detector returns
`"es"`, the first of the tied languages in table order, not `"en"`. -/
theorem detectLanguage_tie_counterexample :
    lookupA (languageScores "el le") "es" = some 1 ∧
    lookupA (languageScores "el le") "fr" = some 1 ∧
    lookupA (languageScores "el le") "it" = some 1 ∧
    maxScoreOf (languageScores "el le") = 1 ∧
    detectLanguage "el le" = "es" := by
  refine ⟨?_, ?_, ?_, ?_, ?_⟩ <;> decide

/-- C5 (amended): `detectLanguage` returns the FIRST language, in the fixed
table order `en, es, fr, de, it, ru, ar`, whose score equals the maximum
score.  In particular all-zero scores yield `"en"` (the first entry), but a
tie among later languages yields the earliest tied language, not `"en"`. -/
theorem detectLanguage_first_max :
    ∀ text : String, detectLanguage text = argmaxFirst (languageScores text) := by
  intro text
  unfold detectLanguage argmaxFirst
  by_cases h : maxScoreOf (languageScores text) = 0
  · have hstay : (languageScores text).foldl bestStep ("en", 0) = ("en", 0) :=
      foldl_bestStep_stays _ _ (by omega)
    rw [hstay]
    obtain ⟨s, rest, hrest⟩ : ∃ s rest, languageScores text = ("en", s) :: rest :=
      ⟨_, _, rfl⟩
    rw [hrest] at h
    have hs : s ≤ maxScoreOf (("en", s) :: rest) :=
      mem_le_maxScoreOf _ ("en", s) (List.mem_cons_self _ _)
    rw [hrest, List.find?]
    have hd : decide (s = maxScoreOf (("en", s) :: rest)) = true := by
      simp only [decide_eq_true_eq]; omega
    simp [hd]
  · obtain ⟨p, hp1, hp2⟩ :=
      foldl_bestStep_finds (languageScores text) ("en", 0) (by omega)
    rw [hp2, hp1]

/-! ## Text chunker (`splitText`, google-translate route)

`splitText` first splits the text on sentence boundaries with
`text.split(/(?<=[.!?])\s+/)`, accumulates sentences into parts of at most
`maxLength` characters, recursively splits over-long sentences on clause
boundaries `/(?<=[,;])\s+/`, and slices over-long clauses into fixed-size
pieces with `slice(i, i + maxLength)`. -/

/-- Is the previous character one of the lookbehind separators? -/
def prevIsSep (seps : List Char) : Option Char → Bool
  | some p => p ∈ seps
  | none => false

/-- JavaScript `String.prototype.split` on the regex `/(?<=[X])\s+/`: split at
every maximal whitespace run whose preceding character is in `seps` (the
separator itself is dropped; a trailing separator contributes a final empty
piece, exactly as in JavaScript).  Written with an explicit fuel — every step
consumes at least one character, so fuel equal to the input length is always
sufficient — to keep the definition reducible in the kernel. -/
def splitLBF (seps : List Char) : Nat → Option Char → List Char → List Char →
    List (List Char)
  | _, _, acc, [] => [acc.reverse]
  | 0, _, acc, c :: rest => [acc.reverse ++ c :: rest]
  | fuel + 1, prev, acc, c :: rest =>
    if jsSpace c && prevIsSep seps prev then
      acc.reverse :: splitLBF seps fuel (some ' ') [] (rest.dropWhile jsSpace)
    else splitLBF seps fuel (some c) (c :: acc) rest

/-- Split at whitespace runs with lookbehind `seps`. -/
def splitLB (seps : List Char) (l : List Char) : List (List Char) :=
  splitLBF seps l.length none [] l

/-- Sentence split `text.split(/(?<=[.!?])\s+/)`. -/
def splitSentences (l : List Char) : List (List Char) :=
  splitLB ['.', '!', '?'] l

/-- Clause split `sentence.split(/(?<=[,;])\s+/)`. -/
def splitClauses (l : List Char) : List (List Char) :=
  splitLB [',', ';'] l

/-- The fixed-size slicing loop
`for (let i = 0; i < s.length; i += maxLength) parts.push(s.slice(i, i + maxLength))`,
written with an explicit fuel equal to the list length (sufficient for every
`maxLength ≥ 1`; for `maxLength = 0` the JavaScript loop diverges, a case no
caller exercises since the only chunk size used is `5000` and the claim
assumes `L ≥ 1`). -/
def sliceChunksF : Nat → Nat → List Char → List (List Char)
  | 0, _, _ => []
  | _ + 1, _, [] => []
  | fuel + 1, L, x :: xs => (x :: xs).take L :: sliceChunksF fuel L ((x :: xs).drop L)

/-- Fixed-size slicing of a clause into pieces of length `L`. -/
def sliceChunks (L : Nat) (l : List Char) : List (List Char) :=
  sliceChunksF l.length L l

/-- The accumulator update `acc += (acc ? ' ' : '') + piece`. -/
def joinSp (a b : List Char) : List Char :=
  if a = [] then b else a ++ ' ' :: b

/-- The inner loop of `splitText` over clause pieces (`subSentences`),
accumulating into `parts` and the running clause accumulator `subPart`. -/
def processSubs (L : Nat) : List (List Char) → List (List Char) → List Char →
    List (List Char) × List Char
  | [], parts, subPart => (parts, subPart)
  | sub :: rest, parts, subPart =>
    if L < sub.length then
      let parts1 := if subPart.isEmpty then parts else parts ++ [subPart]
      processSubs L rest (parts1 ++ sliceChunks L sub) []
    else if L < subPart.length + sub.length + 1 then
      processSubs L rest (parts ++ [subPart]) sub
    else
      processSubs L rest parts (joinSp subPart sub)

/-- The outer loop of `splitText` over sentences, accumulating into `parts`
and the running sentence accumulator `currentPart`. -/
def processSents (L : Nat) : List (List Char) → List (List Char) → List Char →
    List (List Char)
  | [], parts, current => if current.isEmpty then parts else parts ++ [current]
  | s :: rest, parts, current =>
    if L < s.length then
      let parts1 := if current.isEmpty then parts else parts ++ [current]
      let pr := processSubs L (splitClauses s) parts1 []
      let parts2 := if pr.2.isEmpty then pr.1 else pr.1 ++ [pr.2]
      processSents L rest parts2 []
    else if L < current.length + s.length + 1 then
      processSents L rest (parts ++ [current]) s
    else
      processSents L rest parts (joinSp current s)

/-- The text chunker `splitText` of the google-translate route, on character
lists. -/
def splitTextL (text : List Char) (maxLength : Nat) : List (List Char) :=
  if text.length ≤ maxLength then [text]
  else processSents maxLength (splitSentences text) [] []

/-- The text chunker `splitText` of the google-translate route. -/
def splitText (text : String) (maxLength : Nat) : List String :=
  (splitTextL text.data maxLength).map fun l => ⟨l⟩

/-- Whitespace-separated words of a character list (used to state the
property "words in order" of the claim), with fuel for kernel reducibility. -/
def wordsF : Nat → List Char → List (List Char)
  | _, [] => []
  | 0, c :: rest => [c :: rest]
  | fuel + 1, c :: rest =>
    if jsSpace c then wordsF fuel rest
    else ((c :: rest).takeWhile fun d => !jsSpace d) ::
      wordsF fuel ((c :: rest).dropWhile fun d => !jsSpace d)

/-- Whitespace-separated words of a character list. -/
def wordsL (l : List Char) : List (List Char) := wordsF l.length l

/-- Join chunks with single spaces ("concatenating them with single
spaces"). -/
def joinWithSpace : List (List Char) → List Char
  | [] => []
  | [x] => x
  | x :: y :: rest => x ++ ' ' :: joinWithSpace (y :: rest)

theorem joinSp_length (a b : List Char) :
    (joinSp a b).length = if a = [] then b.length else a.length + 1 + b.length := by
  unfold joinSp
  split <;> simp <;> omega

theorem sliceChunksF_length_le (L : Nat) :
    ∀ (fuel : Nat) (l c : List Char), c ∈ sliceChunksF fuel L l → c.length ≤ L := by
  intro fuel
  induction fuel with
  | zero => intro l c hc; simp [sliceChunksF] at hc
  | succ n ih =>
    intro l c hc
    match l with
    | [] => simp [sliceChunksF] at hc
    | x :: xs =>
      rw [sliceChunksF] at hc
      rcases List.mem_cons.mp hc with h | h
      · subst h
        simpa using List.length_take_le L (x :: xs)
      · exact ih _ c h

theorem appendIf_le (L : Nat) (parts : List (List Char)) (cur : List Char)
    (hp : ∀ p ∈ parts, p.length ≤ L) (hc : cur.length ≤ L) :
    ∀ p ∈ (if cur.isEmpty then parts else parts ++ [cur]), p.length ≤ L := by
  intro p h
  split at h
  · exact hp p h
  · rcases List.mem_append.mp h with h' | h'
    · exact hp p h'
    · rw [List.mem_singleton.mp h']; exact hc

theorem processSubs_length_le (L : Nat) (subs : List (List Char)) :
    ∀ (parts : List (List Char)) (subPart : List Char),
      (∀ p ∈ parts, p.length ≤ L) → subPart.length ≤ L →
      (∀ p ∈ (processSubs L subs parts subPart).1, p.length ≤ L) ∧
        (processSubs L subs parts subPart).2.length ≤ L := by
  induction subs with
  | nil => intro parts subPart hp hs; exact ⟨hp, hs⟩
  | cons sub rest ih =>
    intro parts subPart hp hs
    rw [processSubs]
    split
    · -- over-long clause: flush subPart, slice the clause
      apply ih
      · intro p hmem
        rcases List.mem_append.mp hmem with h | h
        · split at h
          · exact hp p h
          · rcases List.mem_append.mp h with h' | h'
            · exact hp p h'
            · rw [List.mem_singleton.mp h']; exact hs
        · exact sliceChunksF_length_le L _ _ p h
      · simp
    · split
      · -- clause does not fit: flush subPart, restart from the clause
        apply ih
        · intro p hmem
          rcases List.mem_append.mp hmem with h | h
          · exact hp p h
          · rw [List.mem_singleton.mp h]; exact hs
        · omega
      · -- clause fits: extend subPart
        apply ih _ _ hp
        rw [joinSp_length]
        split <;> omega

theorem processSents_length_le (L : Nat) (sents : List (List Char)) :
    ∀ (parts : List (List Char)) (current : List Char),
      (∀ p ∈ parts, p.length ≤ L) → current.length ≤ L →
      ∀ c ∈ processSents L sents parts current, c.length ≤ L := by
  induction sents with
  | nil =>
    intro parts current hp hc c hmem
    rw [processSents] at hmem
    split at hmem
    · exact hp c hmem
    · rcases List.mem_append.mp hmem with h | h
      · exact hp c h
      · rw [List.mem_singleton.mp h]; exact hc
  | cons s rest ih =>
    intro parts current hp hc c hmem
    simp only [processSents] at hmem
    split at hmem
    · -- over-long sentence: flush current, process its clauses
      have hsubs := processSubs_length_le L (splitClauses s)
        (if current.isEmpty then parts else parts ++ [current]) []
        (appendIf_le L parts current hp hc) (by simp)
      exact ih _ _ (appendIf_le L _ _ hsubs.1 hsubs.2) (by simp) c hmem
    · split at hmem
      · -- sentence does not fit: flush current, restart from the sentence
        refine ih _ _ ?_ (by omega) c hmem
        intro p h
        rcases List.mem_append.mp h with h' | h'
        · exact hp p h'
        · rw [List.mem_singleton.mp h']; exact hc
      · -- sentence fits: extend current
        refine ih _ _ hp ?_ c hmem
        rw [joinSp_length]
        split <;> omega

/-- C2 (counterexample): on the text `"aa bb cc dd"` with `L = 5` the chunker
returns `["aa bb", " cc d", "d"]`: the fixed-length slicing step cuts the word
`"dd"` in two, so joining the chunks with single spaces yields the word
sequence `aa bb cc d d`, not `aa bb cc dd` — even though every word of the
input is shorter than `L`, so the over-long-word exception of the claim does not
apply. -/
theorem splitText_words_counterexample :
    splitText "aa bb cc dd" 5 = ["aa bb", " cc d", "d"] ∧
    wordsL (joinWithSpace (splitTextL "aa bb cc dd".data 5)) ≠
      wordsL "aa bb cc dd".data ∧
    (∀ w ∈ wordsL "aa bb cc dd".data, w.length ≤ 5) := by
  refine ⟨by decide, by decide, by decide⟩

/-- C2 (amended): for every text and every maximum length `L ≥ 1`, every chunk
returned by `splitText` has length at most `L` — with no exception: an
over-long word is sliced at exactly `L` characters (which is also why the
word-reproduction part of the original claim fails). -/
theorem splitText_chunk_length_le (text : String) (L : Nat) (hL : 1 ≤ L) :
    ∀ c ∈ splitText text L, c.length ≤ L := by
  intro c hc
  obtain ⟨l, hl, rfl⟩ := List.mem_map.mp hc
  show l.length ≤ L
  unfold splitTextL at hl
  split at hl
  · rw [List.mem_singleton.mp hl]
    assumption
  · exact processSents_length_le L _ [] [] (by simp) (by simp) l hl

/-- C2 (witness): the amended bound, instantiated on the counterexample
input. -/
theorem splitText_chunk_length_le_witness :
    (1 ≤ 5 ∧ "aa bb" ∈ splitText "aa bb cc dd" 5) ∧ ("aa bb" : String).length ≤ 5 :=
  ⟨⟨by decide, by decide⟩,
    splitText_chunk_length_le "aa bb cc dd" 5 (by decide) "aa bb" (by decide)⟩

/-! ## Video identifier resolver (`extractVideoId`, `extractYouTubeVideoId`)

The resolver dispatches on the platform hint and extracts an id with a
platform-specific regex:

* YouTube: `/^.*(youtu.be\/|v\/|e\/|u\/\w+\/|embed\/|v=)([^#\&\?]*).*/` with
  an 11-character check on group 2, and timestamp/random fallback ids;
* Facebook: `/facebook\.com\/(?:watch\/\?v=|.*?\/videos\/|video\.php\?v=|watch\?v=)(\d+)/`;
* TikTok: `/tiktok\.com\/@[\w.-]+\/video\/(\d+)/`;
* Instagram: `/instagram\.com\/(?:p|reel)\/([A-Za-z0-9_-]+)/`;
* Vimeo: `/vimeo\.com\/(\d+)/`;
* other: base64 of the URL filtered to alphanumerics, truncated to 16.

Each regex is translated to a scanner implementing the exact backtracking
semantics: the anchored greedy `^.*` prefers the largest starting position of
group 1; unanchored regexes prefer the leftmost overall start; alternations
are tried in written order; `.*?` is lazy; `\w+`/`(\d+)`/char-class-plus are
greedy with backtracking (which here degenerates to the maximal run because
the following literal starts with a character outside the class). -/

/-- Greedy capture run starting at `r`: `some` (requiring at least one
character, as for `(\d+)` and the other `+`-quantified capture groups) of the
maximal run of class characters. -/
def runAt (p : Char → Bool) (l : List Char) (r : Nat) : Option String :=
  if charAtSat p l r then some ⟨(l.drop r).takeWhile p⟩ else none

/-- Group-1 alternation `(youtu.be\/|v\/|e\/|u\/\w+\/|embed\/|v=)` of the
YouTube regex, tried at position `i`; returns the end position of the match.
The unescaped `.` of `youtu.be` matches any non-line-terminator.  In
`u\/\w+\/` the greedy `\w+` cannot backtrack below the maximal run, because
the following `/` is not a word character. -/
def ytAlt (l : List Char) (i : Nat) : Option Nat :=
  if occursAt "youtu".data l i && charAtSat jsDot l (i + 5) &&
      occursAt "be/".data l (i + 6) then some (i + 9)
  else if occursAt ['v', '/'] l i then some (i + 2)
  else if occursAt ['e', '/'] l i then some (i + 2)
  else if charAtSat (· = 'u') l i && charAtSat (· = '/') l (i + 1) then
    let m := runLengthAt jsWordChar l (i + 2)
    if 1 ≤ m && charAtSat (· = '/') l (i + 2 + m) then some (i + 2 + m + 1)
    else none
  else if occursAt "embed/".data l i then some (i + 6)
  else if occursAt ['v', '='] l i then some (i + 2)
  else none

/-- The anchored greedy prefix `^.*` of the YouTube regex: the match starts at
the LARGEST position `i` (not beyond the first line terminator) at which the
group-1 alternation matches, because everything after group 1 always
matches. -/
def ytSearch (l : List Char) : Option Nat :=
  let limit := (l.takeWhile jsDot).length
  (List.range (limit + 1)).reverse.findSome? fun i => ytAlt l i

/-- Character class `[^#\&\?]` of group 2 of the YouTube regex. -/
def g2Char (c : Char) : Bool := ¬ (c = '#' ∨ c = '&' ∨ c = '?')

/-- Group 2 of the YouTube regex: the greedy maximal `[^#\&\?]*` run after
group 1 (the trailing `.*` imposes no constraint). -/
def youtubeGroup2 (l : List Char) : Option (List Char) :=
  (ytSearch l).map fun e => (l.drop e).takeWhile g2Char

/-- The successful pattern path of `extractYouTubeVideoId`:
`match && match[2]?.length === 11` yields `match[2]`. -/
def youtubeRegexId (url : String) : Option String :=
  match youtubeGroup2 url.data with
  | some g => if g.length = 11 then some ⟨g⟩ else none
  | none => none

/-- `extractYouTubeVideoId`: pattern extraction with timestamp fallback for an
empty URL and timestamp-plus-random fallback for an unmatched URL (the
`catch` branch is unreachable in the model, `String.prototype.match` being
total). -/
def extractYouTubeVideoId (url : String) (now : Nat) (rand : String) : String :=
  if url = "" then "youtube-" ++ toString now
  else match youtubeRegexId url with
    | some s => s
    | none => "youtube-" ++ toString now ++ "-" ++ rand

/-- The non-capturing alternation of the Facebook regex at position `q` (just
after `facebook.com/`), returning the start position of the `(\d+)` group.
The second alternative has a lazy `.*?`, so the SMALLEST `k` wins for which
`/videos/` follows `k` non-line-terminators and a digit follows that. -/
def fbAlt (l : List Char) (q : Nat) : Option Nat :=
  if occursAt "watch/?v=".data l q && charAtSat jsDigit l (q + 9) then
    some (q + 9)
  else
    let limit := runLengthAt jsDot l q
    match (List.range (limit + 1)).find? (fun k =>
        occursAt "/videos/".data l (q + k) && charAtSat jsDigit l (q + k + 8)) with
    | some k => some (q + k + 8)
    | none =>
      if occursAt "video.php?v=".data l q && charAtSat jsDigit l (q + 12) then
        some (q + 12)
      else if occursAt "watch?v=".data l q && charAtSat jsDigit l (q + 8) then
        some (q + 8)
      else none

/-- Facebook id extraction (unanchored leftmost match). -/
def fbMatch (url : String) : Option String :=
  (List.range (url.data.length + 1)).findSome? fun p =>
    if occursAt "facebook.com/".data url.data p then
      (fbAlt url.data (p + 13)).bind fun r => runAt jsDigit url.data r
    else none

/-- Character class `[\w.-]` of the TikTok regex. -/
def ttClassChar (c : Char) : Bool := jsWordChar c ∨ c = '.' ∨ c = '-'

/-- TikTok id extraction: `tiktok.com/@`, a maximal nonempty `[\w.-]+` run
(no backtracking below the maximum is possible: `/video/` starts with `/`,
not a class character), then `/video/` and the digits group. -/
def ttMatch (url : String) : Option String :=
  (List.range (url.data.length + 1)).findSome? fun p =>
    if occursAt "tiktok.com/@".data url.data p then
      if 1 ≤ runLengthAt ttClassChar url.data (p + 12) &&
          occursAt "/video/".data url.data
            (p + 12 + runLengthAt ttClassChar url.data (p + 12)) then
        runAt jsDigit url.data (p + 12 + runLengthAt ttClassChar url.data (p + 12) + 7)
      else none
    else none

/-- Character class `[A-Za-z0-9_-]` of the Instagram regex. -/
def igClassChar (c : Char) : Bool :=
  ('A' ≤ c ∧ c ≤ 'Z') ∨ ('a' ≤ c ∧ c ≤ 'z') ∨ ('0' ≤ c ∧ c ≤ '9') ∨
  c = '_' ∨ c = '-'

/-- Instagram id extraction: `instagram.com/`, then `(?:p|reel)` in
alternation order, `/`, and the slug group (the two alternatives start with
distinct characters, so no cross-alternative backtracking can occur). -/
def igMatch (url : String) : Option String :=
  (List.range (url.data.length + 1)).findSome? fun p =>
    if occursAt "instagram.com/".data url.data p then
      if charAtSat (· = 'p') url.data (p + 14) &&
          charAtSat (· = '/') url.data (p + 15) then
        runAt igClassChar url.data (p + 16)
      else if occursAt "reel/".data url.data (p + 14) then
        runAt igClassChar url.data (p + 19)
      else none
    else none

/-- Vimeo id extraction: `vimeo.com/` and the digits group. -/
def vimeoMatch (url : String) : Option String :=
  (List.range (url.data.length + 1)).findSome? fun p =>
    if occursAt "vimeo.com/".data url.data p then runAt jsDigit url.data (p + 10)
    else none

/-- ASCII alphanumeric characters, the class kept by the
`replace(/[^a-zA-Z0-9]/g, '')` of the `other` branch. -/
def isAsciiAlnum (c : Char) : Bool :=
  ('a' ≤ c ∧ c ≤ 'z') ∨ ('A' ≤ c ∧ c ≤ 'Z') ∨ ('0' ≤ c ∧ c ≤ '9')

/-- The standard base64 alphabet. -/
def base64Alphabet : List Char :=
  "ABCDEFGHIJKLMNOPQRSTUVWXYZabcdefghijklmnopqrstuvwxyz0123456789+/".data

/-- Base64 digit for a 6-bit value. -/
def b64Char (n : Nat) : Char := base64Alphabet.getD n 'A'

/-- Base64 encoding of a byte list (`Buffer.prototype.toString('base64')`). -/
def base64Encode : List Nat → List Char
  | [] => []
  | [b1] => [b64Char (b1 / 4), b64Char (b1 % 4 * 16), '=', '=']
  | [b1, b2] =>
    [b64Char (b1 / 4), b64Char (b1 % 4 * 16 + b2 / 16), b64Char (b2 % 16 * 4), '=']
  | b1 :: b2 :: b3 :: rest =>
    b64Char (b1 / 4) :: b64Char (b1 % 4 * 16 + b2 / 16) ::
      b64Char (b2 % 16 * 4 + b3 / 64) :: b64Char (b3 % 64) :: base64Encode rest

/-- UTF-8 encoding of one character (`Buffer.from(url)` uses UTF-8). -/
def utf8Bytes (c : Char) : List Nat :=
  if c.toNat < 0x80 then [c.toNat]
  else if c.toNat < 0x800 then [0xC0 + c.toNat / 64, 0x80 + c.toNat % 64]
  else if c.toNat < 0x10000 then
    [0xE0 + c.toNat / 4096, 0x80 + c.toNat / 64 % 64, 0x80 + c.toNat % 64]
  else
    [0xF0 + c.toNat / 0x40000, 0x80 + c.toNat / 4096 % 64,
     0x80 + c.toNat / 64 % 64, 0x80 + c.toNat % 64]

/-- The `other` branch:
`Buffer.from(url).toString('base64').replace(/[^a-zA-Z0-9]/g, '').substring(0, 16)`. -/
def otherPlatformId (url : String) : String :=
  ⟨((base64Encode (url.data.bind utf8Bytes)).filter isAsciiAlnum).take 16⟩

/-- The platform dispatch of `extractVideoId` (the `switch` of the source,
including the initial `if (!url) return null` and the `default: return null`
branch). -/
def extractVideoId (url platform : String) (now : Nat) (rand : String) :
    Option String :=
  if url = "" then none
  else if platform = "youtube" then some (extractYouTubeVideoId url now rand)
  else if platform = "facebook" then fbMatch url
  else if platform = "tiktok" then ttMatch url
  else if platform = "instagram" then igMatch url
  else if platform = "vimeo" then vimeoMatch url
  else if platform = "other" then some (otherPlatformId url)
  else none

theorem string_mk_ne_empty (l : List Char) (h : l ≠ []) : (⟨l⟩ : String) ≠ "" := by
  intro he
  apply h
  have := congrArg String.data he
  simpa using this

theorem runAt_ne_empty (p : Char → Bool) (l : List Char) (r : Nat) (s : String)
    (h : runAt p l r = some s) : s ≠ "" := by
  unfold runAt at h
  unfold charAtSat at h
  cases hd : l.drop r with
  | nil => rw [hd] at h; simp at h
  | cons c t =>
    rw [hd] at h
    by_cases hp : p c = true
    · rw [if_pos hp] at h
      have hs : s = ⟨(c :: t).takeWhile p⟩ := (Option.some_inj.mp h).symm
      rw [hs, List.takeWhile_cons_of_pos hp]
      exact string_mk_ne_empty _ (by simp)
    · rw [if_neg (by simpa using hp)] at h
      simp at h

theorem youtubeRegexId_length (url : String) (s : String)
    (h : youtubeRegexId url = some s) : s.length = 11 := by
  unfold youtubeRegexId at h
  cases hg : youtubeGroup2 url.data with
  | none => rw [hg] at h; simp at h
  | some g =>
    rw [hg] at h
    have h' : (if g.length = 11 then some (⟨g⟩ : String) else none) = some s := h
    by_cases hl : g.length = 11
    · rw [if_pos hl] at h'
      rw [← Option.some_inj.mp h']
      exact hl
    · rw [if_neg hl] at h'; simp at h'

theorem extractYouTubeVideoId_ne_empty (url : String) (now : Nat)
    (rand : String) : extractYouTubeVideoId url now rand ≠ "" := by
  unfold extractYouTubeVideoId
  split
  · intro h
    have := congrArg String.data h
    rw [String.data_append] at this
    simp at this
  · cases hm : youtubeRegexId url with
    | some s =>
      intro h
      have hs : s = "" := h
      have := youtubeRegexId_length url s hm
      rw [hs] at this
      simp [String.length] at this
    | none =>
      intro h
      have hs : "youtube-" ++ toString now ++ "-" ++ rand = "" := h
      have := congrArg String.data hs
      rw [String.data_append, String.data_append] at this
      simp at this

theorem fbMatch_ne_empty (url s : String) (h : fbMatch url = some s) : s ≠ "" := by
  unfold fbMatch at h
  obtain ⟨p, _, hp⟩ := List.exists_of_findSome?_eq_some h
  split at hp
  · cases hr : fbAlt url.data (p + 13) with
    | none => rw [hr] at hp; simp at hp
    | some r =>
      rw [hr] at hp
      exact runAt_ne_empty _ _ _ _ hp
  · simp at hp

theorem ttMatch_ne_empty (url s : String) (h : ttMatch url = some s) : s ≠ "" := by
  unfold ttMatch at h
  obtain ⟨p, _, hp⟩ := List.exists_of_findSome?_eq_some h
  split at hp
  · split at hp
    · exact runAt_ne_empty _ _ _ _ hp
    · simp at hp
  · simp at hp

theorem igMatch_ne_empty (url s : String) (h : igMatch url = some s) : s ≠ "" := by
  unfold igMatch at h
  obtain ⟨p, _, hp⟩ := List.exists_of_findSome?_eq_some h
  split at hp
  · split at hp
    · exact runAt_ne_empty _ _ _ _ hp
    · split at hp
      · exact runAt_ne_empty _ _ _ _ hp
      · simp at hp
  · simp at hp

theorem vimeoMatch_ne_empty (url s : String) (h : vimeoMatch url = some s) :
    s ≠ "" := by
  unfold vimeoMatch at h
  obtain ⟨p, _, hp⟩ := List.exists_of_findSome?_eq_some h
  split at hp
  · exact runAt_ne_empty _ _ _ _ hp
  · simp at hp

theorem char_toNat_lt (c : Char) : c.toNat < 1114112 := by
  rcases c.valid with h | ⟨_, h⟩
  · exact Nat.lt_trans h (by norm_num)
  · exact h

theorem string_eq_empty_of_data (s : String) (h : s.data = []) : s = "" := by
  cases s with
  | mk d =>
    have hd : d = [] := h
    rw [hd]

theorem utf8Bytes_head_lt (c : Char) :
    ∃ b bs, utf8Bytes c = b :: bs ∧ b < 248 := by
  have hc := char_toNat_lt c
  unfold utf8Bytes
  split
  · exact ⟨_, _, rfl, by omega⟩
  · split
    · refine ⟨_, _, rfl, ?_⟩
      have : c.toNat / 64 < 32 := Nat.div_lt_of_lt_mul (by omega)
      omega
    · split
      · refine ⟨_, _, rfl, ?_⟩
        have : c.toNat / 4096 < 16 := Nat.div_lt_of_lt_mul (by omega)
        omega
      · refine ⟨_, _, rfl, ?_⟩
        have : c.toNat / 262144 < 5 := Nat.div_lt_of_lt_mul (by omega)
        omega

theorem b64Char_alnum : ∀ n, n < 62 → isAsciiAlnum (b64Char n) = true := by
  decide

theorem base64Encode_cons (b : Nat) (bs : List Nat) :
    ∃ t, base64Encode (b :: bs) = b64Char (b / 4) :: t := by
  match bs with
  | [] => exact ⟨_, rfl⟩
  | [x] => exact ⟨_, rfl⟩
  | x :: y :: r => exact ⟨_, rfl⟩

theorem otherPlatformId_ne_empty (url : String) (h : url ≠ "") :
    otherPlatformId url ≠ "" := by
  unfold otherPlatformId
  obtain ⟨c, cs, hdata⟩ : ∃ c cs, url.data = c :: cs := by
    cases hu : url.data with
    | nil => exact absurd (string_eq_empty_of_data url hu) h
    | cons c cs => exact ⟨c, cs, rfl⟩
  rw [hdata]
  obtain ⟨b, bs, hb, hblt⟩ := utf8Bytes_head_lt c
  have hbind : (c :: cs).bind utf8Bytes = b :: (bs ++ cs.bind utf8Bytes) := by
    simp [List.cons_bind, hb]
  rw [hbind]
  obtain ⟨t, ht⟩ := base64Encode_cons b (bs ++ cs.bind utf8Bytes)
  rw [ht]
  have halnum : isAsciiAlnum (b64Char (b / 4)) = true :=
    b64Char_alnum _ (by omega)
  rw [List.filter_cons_of_pos halnum]
  exact string_mk_ne_empty _ (by simp)

/-- C1 (counterexample): the claim promises a non-null, non-empty id for
EVERY url (including null/empty) and every supported platform hint, but the
resolver returns `null` both for an empty URL (even on the YouTube branch,
whose helper alone would have produced a fallback id) and for a
platform-pattern mismatch on the Facebook branch. -/
theorem extractVideoId_null_counterexample :
    extractVideoId "" "youtube" 0 "" = none ∧
    extractVideoId "https://example.com/clip" "facebook" 0 "" = none := by
  constructor
  · decide
  · decide

/-- C1 (amended): the resolver never throws (it is modelled as a total
function); it returns `null` exactly on an empty URL, on an unrecognized
platform, and on facebook/tiktok/instagram/vimeo URLs whose platform pattern
does not match; every id it does return is a non-empty string; the result is
independent of the clock and of the random generator for every platform other
than `youtube`, and on `youtube` whenever the pattern match succeeds with an
11-character id (only the YouTube fallback ids are timestamp/random-based,
as are the ids of `extractYouTubeVideoId` for the empty URL, a path
`extractVideoId` itself never reaches). -/
theorem extractVideoId_amended (url platform : String) (now now' : Nat)
    (rand rand' : String) :
    (url = "" → extractVideoId url platform now rand = none) ∧
    (∀ s, extractVideoId url platform now rand = some s → s ≠ "") ∧
    (platform ≠ "youtube" →
      extractVideoId url platform now rand =
        extractVideoId url platform now' rand') ∧
    ((youtubeRegexId url).isSome →
      extractVideoId url "youtube" now rand =
        extractVideoId url "youtube" now' rand') := by
  refine ⟨?_, ?_, ?_, ?_⟩
  · intro h
    unfold extractVideoId
    rw [if_pos h]
  · intro s h
    unfold extractVideoId at h
    split at h
    · simp at h
    · split at h
      · rw [← Option.some_inj.mp h]
        exact extractYouTubeVideoId_ne_empty url now rand
      · split at h
        · exact fbMatch_ne_empty url s h
        · split at h
          · exact ttMatch_ne_empty url s h
          · split at h
            · exact igMatch_ne_empty url s h
            · split at h
              · exact vimeoMatch_ne_empty url s h
              · split at h
                · rw [← Option.some_inj.mp h]
                  exact otherPlatformId_ne_empty url (by assumption)
                · simp at h
  · intro hp
    by_cases hu : url = ""
    · simp [extractVideoId, hu]
    · simp only [extractVideoId, if_neg hu, if_neg hp]
  · intro hsome
    by_cases hu : url = ""
    · simp [extractVideoId, hu]
    · cases hm : youtubeRegexId url with
      | some s => simp [extractVideoId, extractYouTubeVideoId, if_neg hu, hm]
      | none => rw [hm] at hsome; simp at hsome

/-- C1 (witness): the amended theorem instantiated on a matching YouTube URL:
the extracted id is independent of clock and randomness. -/
theorem extractVideoId_amended_witness :
    (youtubeRegexId "https://youtu.be/dQw4w9WgXcQ").isSome = true ∧
    extractVideoId "https://youtu.be/dQw4w9WgXcQ" "youtube" 5 "ab" =
      extractVideoId "https://youtu.be/dQw4w9WgXcQ" "youtube" 99 "zz" :=
  ⟨by decide,
    (extractVideoId_amended "https://youtu.be/dQw4w9WgXcQ" "youtube" 5 99
      "ab" "zz").2.2.2 (by decide)⟩

/-! ## Remote-provider translation (`translateWithGoogle`, google-translate route)

The route splits the text into chunks of at most `MAX_CHUNK_SIZE = 5000`
characters, translates each chunk first with the official endpoint and, on
failure, with the alternative endpoint; when both fail the original chunk is
pushed instead.  The chunks are then merged with `join(' ')` and, for Hebrew
and Arabic targets, post-processed (punctuation normalization, right-to-left
marks).  The two HTTP endpoints are oracles
`String → String → String → Option String` (chunk, source code, target code;
`none` models a thrown error). -/

/-- Join string pieces with a separator character (JavaScript
`Array.prototype.join`). -/
def joinWithChar (sep : Char) : List (List Char) → List Char
  | [] => []
  | [x] => x
  | x :: y :: rest => x ++ sep :: joinWithChar sep (y :: rest)

/-- Does the text contain a Hebrew character (`/[֐-׿]/.test`)? -/
def hasHebrewChar (l : List Char) : Bool :=
  l.any fun c => '֐' ≤ c ∧ c ≤ '׿'

/-- Does a multiline `$` match at the start of `t` (end of input or before a
line terminator)? -/
def lineEndHere (t : List Char) : Bool :=
  match t with
  | [] => true
  | c :: _ => jsLineTerm c

/-- Backtracking of the greedy `\s*` before a multiline `$`: the largest
prefix of the whitespace run of `t` after which `$` matches. -/
def dollarBacktrack (t : List Char) : Option Nat :=
  (List.range ((t.takeWhile jsSpace).length + 1)).reverse.find? fun k =>
    lineEndHere (t.drop k)

/-- The global multiline replace `replace(/([^\.\?!]\s*)$/gm, "$1.")`: after
the last non-punctuation character of each line (plus trailing whitespace), insert
a period.  Fuel-driven left-to-right scan; every step consumes at least one
character, so fuel equal to the length is sufficient. -/
def addDotsF : Nat → List Char → List Char
  | 0, rest => rest
  | _ + 1, [] => []
  | fuel + 1, c :: t =>
    if c = '.' ∨ c = '?' ∨ c = '!' then c :: addDotsF fuel t
    else match dollarBacktrack t with
      | some k => (c :: t.take k) ++ '.' :: addDotsF fuel (t.drop k)
      | none => c :: addDotsF fuel t

/-- First punctuation pass of `addHebrewPunctuation`. -/
def addDots (l : List Char) : List Char := addDotsF l.length l

/-- The global replace `replace(/\s{2,}/g, " ")`: collapse every whitespace
run of length at least two into a single space (a lone whitespace character

is kept verbatim). -/
def collapseSpacesF : Nat → List Char → List Char
  | 0, rest => rest
  | _ + 1, [] => []
  | fuel + 1, c :: t =>
    if jsSpace c then
      if 1 ≤ (t.takeWhile jsSpace).length then
        ' ' :: collapseSpacesF fuel (t.drop (t.takeWhile jsSpace).length)
      else c :: collapseSpacesF fuel t
    else c :: collapseSpacesF fuel t

/-- Second punctuation pass of `addHebrewPunctuation`. -/
def collapseSpaces (l : List Char) : List Char := collapseSpacesF l.length l

/-- One `result.replace(new RegExp(phrase + "\\s", 'g'), replacement + " ")`
pass: every occurrence of the literal phrase followed by one whitespace
character becomes the replacement followed by a space. -/
def replacePhraseF : Nat → List Char → List Char → List Char → List Char
  | 0, _, _, rest => rest
  | fuel + 1, pat, repl, rest =>
    match rest with
    | [] => []
    | c :: t =>
      if startsWithL pat rest && charAtSat jsSpace rest pat.length then
        repl ++ ' ' :: replacePhraseF fuel pat repl (rest.drop (pat.length + 1))
      else c :: replacePhraseF fuel pat repl t

/-- Phrase replacement pass of `addHebrewPunctuation`. -/
def replacePhrase (pat repl l : List Char) : List Char :=
  replacePhraseF l.length pat repl l

/-- The `commonPhrases` table of `addHebrewPunctuation`, in object insertion
order. -/
def commonPhrases : List (String × String) :=
  [("לדוגמה", "לדוגמה,"), ("כמו כן", "כמו כן,"), ("בנוסף", "בנוסף,"),
   ("לסיכום", "לסיכום,"), ("לכן", "לכן,"), ("כגון", "כגון,"),
   ("למשל", "למשל,"), ("כלומר", "כלומר,"), ("אולם", "אולם,"),
   ("אבל", "אבל,")]

/-- `addHebrewPunctuation`: on Hebrew-containing text, terminate lines with
periods, collapse whitespace runs and normalize the comma after common
connective phrases. -/
def addHebrewPunctuation (text : String) : String :=
  if text = "" then text
  else if ¬ hasHebrewChar text.data then text
  else
    ⟨commonPhrases.foldl
      (fun acc pr => replacePhrase pr.1.data pr.2.data acc)
      (collapseSpaces (addDots text.data))⟩

/-- `setTextDirection`: prepend a right-to-left mark (U+200F) to each
non-blank paragraph for Hebrew/Arabic targets, and report the direction. -/
def setTextDirection (text : String) (targetLang : String) : String × String :=
  if targetLang = "he" ∨ targetLang = "ar" then
    (⟨joinWithChar '\n' ((splitOnCharL '\n' text.data).map fun p =>
        if jsTrim p ≠ [] then '‏' :: p else p)⟩, "rtl")
  else (text, "ltr")

/-- The `languageMap` of `getGoogleLanguageCode`. -/
def googleLanguageMap : List (String × String) :=
  [("en", "en"), ("he", "iw"), ("ar", "ar"), ("ru", "ru"), ("fr", "fr"),
   ("es", "es"), ("de", "de"), ("it", "it"), ("zh", "zh-CN"), ("ja", "ja"),
   ("ko", "ko"), ("pt", "pt"), ("hi", "hi"), ("tr", "tr"), ("nl", "nl")]

/-- `getGoogleLanguageCode`: `languageMap[langCode] || langCode` (all map
values are nonempty, so falsiness coincides with key absence). -/
def getGoogleLanguageCode (langCode : String) : String :=
  (lookupA googleLanguageMap langCode).getD langCode

/-- The maximal chunk size for the remote provider. -/
def MAX_CHUNK_SIZE : Nat := 5000

/-- Per-chunk translation: official endpoint first, alternative endpoint on
failure, the original chunk when both fail (the nested
`try`/`catch`). -/
def translateChunk (official alt : String → String → String → Option String)
    (gSl gTl : String) (chunk : String) : String :=
  match official chunk gSl gTl with
  | some t => t
  | none =>
    match alt chunk gSl gTl with
    | some t => t
    | none => chunk

/-- The `translatedChunks` array built by the chunk loop of
`translateWithGoogle` (the inter-chunk 500 ms delay has no effect on the
result and is not modelled). -/
def translatedChunksOf (official alt : String → String → String → Option String)
    (chunks : List String) (gSl gTl : String) : List String :=
  chunks.map (translateChunk official alt gSl gTl)

/-- The result record of `translateWithGoogle`. -/
structure GoogleTranslation where
  translation : String
  direction : String
deriving Repr, DecidableEq

/-- `translateWithGoogle`: chunk, translate with per-chunk fallback, merge
with `join(' ')`, post-process for Hebrew targets, set the direction. -/
def translateWithGoogle (official alt : String → String → String → Option String)
    (text sourceLang targetLang : String) : GoogleTranslation :=
  let chunks := splitText text MAX_CHUNK_SIZE
  let tcs := translatedChunksOf official alt chunks
    (getGoogleLanguageCode sourceLang) (getGoogleLanguageCode targetLang)
  let merged : String := ⟨joinWithChar ' ' (tcs.map String.data)⟩
  let merged2 := if targetLang = "he" then addHebrewPunctuation merged else merged
  let td := setTextDirection merged2 targetLang
  { translation := td.1, direction := td.2 }

/-- C8 (confirmed): in the remote-provider path every chunk is sent to the
primary endpoint and, on its failure, to the secondary endpoint; a chunk for
which both fail contributes its original text at its own position of the
translated-chunk list, the list keeps one entry per chunk (the remaining
chunks are still processed), and the returned translation is exactly the
space-join of that list, post-processed for the target language — a chunk
failure never aborts the whole translation. -/
theorem translateWithGoogle_chunk_fallback
    (official alt : String → String → String → Option String)
    (text sourceLang targetLang c : String) (i : Nat)
    (hc : (splitText text MAX_CHUNK_SIZE).get? i = some c)
    (ho : official c (getGoogleLanguageCode sourceLang)
      (getGoogleLanguageCode targetLang) = none)
    (ha : alt c (getGoogleLanguageCode sourceLang)
      (getGoogleLanguageCode targetLang) = none) :
    (translatedChunksOf official alt (splitText text MAX_CHUNK_SIZE)
      (getGoogleLanguageCode sourceLang) (getGoogleLanguageCode targetLang)).get? i
        = some c ∧
    (translatedChunksOf official alt (splitText text MAX_CHUNK_SIZE)
      (getGoogleLanguageCode sourceLang) (getGoogleLanguageCode targetLang)).length
        = (splitText text MAX_CHUNK_SIZE).length ∧
    (translateWithGoogle official alt text sourceLang targetLang).translation =
      (setTextDirection
        (if targetLang = "he" then
          addHebrewPunctuation ⟨joinWithChar ' '
            ((translatedChunksOf official alt (splitText text MAX_CHUNK_SIZE)
              (getGoogleLanguageCode sourceLang)
              (getGoogleLanguageCode targetLang)).map String.data)⟩
        else ⟨joinWithChar ' '
            ((translatedChunksOf official alt (splitText text MAX_CHUNK_SIZE)
              (getGoogleLanguageCode sourceLang)
              (getGoogleLanguageCode targetLang)).map String.data)⟩)
        targetLang).1 := by
  refine ⟨?_, ?_, ?_⟩
  · unfold translatedChunksOf
    rw [List.get?_map, hc]
    simp [translateChunk, ho, ha]
  · unfold translatedChunksOf
    exact List.length_map _ _
  · rfl

/-- C8 (witness): a single-chunk text with both endpoints failing comes back
verbatim. -/
theorem translateWithGoogle_chunk_fallback_witness :
    ((splitText "hello world" MAX_CHUNK_SIZE).get? 0 = some "hello world") ∧
    (translatedChunksOf (fun _ _ _ => none) (fun _ _ _ => none)
      (splitText "hello world" MAX_CHUNK_SIZE)
      (getGoogleLanguageCode "en") (getGoogleLanguageCode "ru")).get? 0
        = some "hello world" :=
  ⟨by decide,
    (translateWithGoogle_chunk_fallback (fun _ _ _ => none) (fun _ _ _ => none)
      "hello world" "en" "ru" "hello world" 0 (by decide) rfl rfl).1⟩

/-! ## Download endpoint (`GET`, download route)

The handler validates the `path` query parameter, normalizes it
(`path.normalize` then stripping any leading `../` repetitions and rejecting
remaining `..`), and serves the file; when the file does not exist it first
looks for an alternative `/tmp/video_transcriptions/<id>.mp3` (when the
basename prefix looks like a YouTube id) and otherwise answers `200` with a
minimal empty MP3 payload instead of an error.  The filesystem is an oracle
pair `fsExists`/`isFile`. -/

/-- Segment processing of the node function `path.posix.normalize` (`normalizeString`):
drop empty and `.` segments; `..` pops the previous segment, or survives at
the head only for relative paths.  The accumulator `stack` is kept
reversed. -/
def normSegs (allowAboveRoot : Bool) : List (List Char) → List (List Char) →
    List (List Char)
  | stack, [] => stack
  | stack, seg :: rest =>
    if seg = [] ∨ seg = ['.'] then normSegs allowAboveRoot stack rest
    else if seg = ['.', '.'] then
      match stack with
      | top :: s' =>
        if top = ['.', '.'] then
          normSegs allowAboveRoot (if allowAboveRoot then seg :: stack else stack) rest
        else normSegs allowAboveRoot s' rest
      | [] => normSegs allowAboveRoot (if allowAboveRoot then [seg] else []) rest
    else normSegs allowAboveRoot (seg :: stack) rest

/-- Node `path.posix.normalize`. -/
def posixNormalize (p : String) : String :=
  if p.data = [] then "."
  else
    let isAbs := p.data.headD ' ' = '/'
    let trailingSep := p.data.getLast? = some '/'
    let core := joinWithChar '/'
      ((normSegs (!isAbs) [] (splitOnCharL '/' p.data)).reverse)
    if core = [] then
      if isAbs then "/" else if trailingSep then "./" else "."
    else
      ⟨(if isAbs then '/' :: core else core) ++ (if trailingSep then ['/'] else [])⟩

/-- The `replace(/^(\.\.(\/|\\|$))+/, '')` of the handler: strip every
leading repetition of `..` followed by a slash, a backslash or the end. -/
def stripDD : List Char → List Char
  | '.' :: '.' :: rest =>
    match rest with
    | [] => []
    | '/' :: r => stripDD r
    | '\\' :: r => stripDD r
    | _ => '.' :: '.' :: rest
  | l => l

/-- Node `path.posix.basename` (no extension argument): the last segment,
ignoring trailing slashes. -/
def posixBasename (l : List Char) : List Char :=
  ((l.reverse.dropWhile (· = '/')).takeWhile (· ≠ '/')).reverse

/-- Node `path.posix.extname`: from the last `.` of the basename to its end;
empty for dotfiles and extensionless names. -/
def posixExtname (l : List Char) : List Char :=
  let b := posixBasename l
  let r := b.reverse.takeWhile (· ≠ '.')
  if b.length = r.length then []
  else if b.length = r.length + 1 ∧ b.headD ' ' = '.' then []
  else '.' :: r.reverse

/-- Response body of the download endpoint. -/
inductive DlBody where
  | emptyMp3
  | fileContents (path : String)
  | errorJson (msg : String)
deriving Repr, DecidableEq

/-- Response of the download endpoint. -/
structure DlResp where
  status : Nat
  contentType : String
  body : DlBody
deriving Repr, DecidableEq

/-- The content-type `switch` on the lowercased extension. -/
def contentTypeFor (ext : String) : String :=
  if ext = ".mp3" then "audio/mpeg"
  else if ext = ".wav" then "audio/wav"
  else if ext = ".txt" then "text/plain"
  else if ext = ".json" then "application/json"
  else "application/octet-stream"

/-- The normalized-and-stripped path computed by the handler. -/
def normalizedPathOf (filePath : String) : String :=
  ⟨stripDD (posixNormalize filePath).data⟩

/-- The alternative path `/tmp/video_transcriptions/<id>.mp3` probed by the
handler when the basename prefix looks like a YouTube id. -/
def altPathOf (np : String) : String :=
  ⟨"/tmp/video_transcriptions/".data ++
    (splitOnCharL '.' (posixBasename np.data)).headD [] ++ ".mp3".data⟩

/-- The download `GET` handler. -/
def downloadGET (fsExists isFile : String → Bool) (filePath : String) : DlResp :=
  if filePath = "" then ⟨400, "application/json", .errorJson "File path is required"⟩
  else
    if jsIncludes (normalizedPathOf filePath) ".." then
      ⟨400, "application/json", .errorJson "Invalid file path"⟩
    else if ¬ fsExists (normalizedPathOf filePath) then
      if (splitOnCharL '.' (posixBasename (normalizedPathOf filePath).data)).headD [] ≠ [] ∧
          8 < ((splitOnCharL '.' (posixBasename (normalizedPathOf filePath).data)).headD []).length ∧
          ((splitOnCharL '.' (posixBasename (normalizedPathOf filePath).data)).headD []).length < 20 then
        if fsExists (altPathOf (normalizedPathOf filePath)) then
          ⟨200, "audio/mpeg", .fileContents (altPathOf (normalizedPathOf filePath))⟩
        else ⟨200, "audio/mpeg", .emptyMp3⟩
      else ⟨200, "audio/mpeg", .emptyMp3⟩
    else if ¬ isFile (normalizedPathOf filePath) then
      ⟨400, "application/json", .errorJson "Path is not a file"⟩
    else
      ⟨200, contentTypeFor ⟨(posixExtname (normalizedPathOf filePath).data).map jsToLower⟩,
        .fileContents (normalizedPathOf filePath)⟩

/-- C9 (counterexample): the claim quantifies over EVERY path naming a
nonexistent file, but a path containing `..` after normalization — such as
the legal (if odd) filename `..a` — is rejected with a `400` before the
missing-file fallback is reached, so the response is not the promised
`200 audio/mpeg` empty payload. -/
theorem downloadGET_claim_counterexample :
    downloadGET (fun _ => false) (fun _ => false) "..a" =
      ⟨400, "application/json", .errorJson "Invalid file path"⟩ ∧
    (downloadGET (fun _ => false) (fun _ => false) "..a").status ≠ 200 := by
  constructor
  · decide
  · decide

/-- C9 (amended): for every `GET` whose `path` parameter is nonempty and
passes the traversal filter (no `..` left after normalization), when the
named file does not exist and the alternative file is not located either, the
endpoint responds `200` with content type `audio/mpeg` and the minimal empty
MP3 payload, rather than an error response. -/
theorem downloadGET_missing_file_empty_mp3 (fsExists isFile : String → Bool)
    (filePath : String) (h0 : filePath ≠ "")
    (h1 : jsIncludes (normalizedPathOf filePath) ".." = false)
    (h2 : fsExists (normalizedPathOf filePath) = false)
    (h3 : fsExists (altPathOf (normalizedPathOf filePath)) = false) :
    downloadGET fsExists isFile filePath = ⟨200, "audio/mpeg", .emptyMp3⟩ := by
  unfold downloadGET
  rw [if_neg h0, if_neg (by simp [h1]), if_pos (by simp [h2])]
  split
  · rw [if_neg (by simp [h3])]
  · rfl

/-- C9 (witness): a nonexistent plain path yields the empty MP3 response. -/
theorem downloadGET_missing_file_empty_mp3_witness :
    downloadGET (fun _ => false) (fun _ => false) "missing.mp3" =
      ⟨200, "audio/mpeg", .emptyMp3⟩ :=
  downloadGET_missing_file_empty_mp3 (fun _ => false) (fun _ => false)
    "missing.mp3" (by decide) (by decide) rfl rfl

/-! ## Local-model translation endpoint (`POST`/`GET`, translate route)

The `POST` handler writes `translationProgress[requestId] = 1`, spawns the
Python translator, updates the entry from `Translation progress: N%` stderr
lines, and — on every terminal outcome of the subprocess (error event; close
with unparseable output; close with `success: false`; close with success) —
deletes the entry before resolving the response.  The subprocess is an oracle
`PyOutcome`; the only path that leaves the entry behind is a synchronous
throw of the `PythonShell` constructor itself (the `catch` inside the
promise), which is not one of the four terminal outcomes. -/

/-- JSON output of `nllb_translator.py`, as parsed by the close handler
(`success` is `Option Bool`: the route compares `parsedResult.success ===
false`, so a missing field counts as success). -/
structure NllbParsed where
  success : Option Bool
  original : Option String
  translation : Option String
  source_language : Option String
  target_language : Option String
  used_nllb : Option Bool
deriving Repr, DecidableEq

/-- Outcome of the Python subprocess: constructor throw, `error` event, or
`close` with the progress percentages seen on stderr and the parsed final
message (`none` models a `JSON.parse` failure). -/
inductive PyOutcome where
  | ctorThrow
  | errorEvt (events : List Nat) (msg : String)
  | closeEvt (events : List Nat) (parsed : Option NllbParsed)
deriving Repr, DecidableEq

/-- Responses of the translate route. -/
inductive TrResp where
  | okJson (translation : Option String)
  | okProgress (progress : Nat)
  | errJson (status : Nat) (msg : String)
deriving Repr, DecidableEq

/-- The translate `POST` handler, returning the response and the updated
`translationProgress` map. -/
def translatePost (m : List (String × Nat)) (text requestId : String)
    (scriptExists : Bool) (outcome : PyOutcome) :
    TrResp × List (String × Nat) :=
  if text = "" then (.errJson 400 "Text is required", m)
  else if ¬ scriptExists then (.errJson 500 "Translation script not found", m)
  else
    match outcome with
    | .ctorThrow =>
      (.errJson 500 "Internal server error", upsertA m requestId 1)
    | .errorEvt events _msg =>
      (.errJson 500 "Translation failed",
        deleteA (events.foldl (fun acc p => upsertA acc requestId p)
          (upsertA m requestId 1)) requestId)
    | .closeEvt events parsed =>
      match parsed with
      | none =>
        (.errJson 500 "Failed to parse translation result",
          deleteA (events.foldl (fun acc p => upsertA acc requestId p)
            (upsertA m requestId 1)) requestId)
      | some r =>
        if r.success = some false then
          (.errJson 500 "Translation failed",
            deleteA (events.foldl (fun acc p => upsertA acc requestId p)
              (upsertA m requestId 1)) requestId)
        else
          (.okJson r.translation,
            deleteA (events.foldl (fun acc p => upsertA acc requestId p)
              (upsertA m requestId 1)) requestId)

/-- The translate `GET` (progress poll) handler:
`translationProgress[requestId] || 0`. -/
def translateGetProgress (m : List (String × Nat)) (requestId : String) :
    TrResp :=
  if requestId = "" then .errJson 400 "Request ID is required"
  else .okProgress ((lookupA m requestId).getD 0)

theorem lookupA_deleteA {α : Type} (m : List (String × α)) (k : String) :
    lookupA (deleteA m k) k = none := by
  unfold lookupA deleteA
  induction m with
  | nil => rfl
  | cons p t ih =>
    rw [List.filter_cons]
    by_cases hp : p.1 = k
    · rw [if_neg (by simp [hp])]
      exact ih
    · rw [if_pos (by simp [hp]), List.find?]
      rw [show (decide (p.1 = k)) = false by simp [hp]]
      exact ih

/-- C10 (confirmed): for every local-model translation `POST` that reaches a
terminal outcome — subprocess error event, unparseable output, reported
`success: false`, or success — the progress entry for the request is deleted
before the response resolves, and a subsequent progress `GET` for the same
`requestId` reports progress `0`.  (The only excluded outcome, a synchronous
constructor throw, is not a terminal subprocess outcome.) -/
theorem translatePost_clears_progress (m : List (String × Nat))
    (text requestId : String) (scriptExists : Bool) (outcome : PyOutcome)
    (ht : text ≠ "") (hs : scriptExists = true) (ho : outcome ≠ .ctorThrow)
    (hr : requestId ≠ "") :
    lookupA (translatePost m text requestId scriptExists outcome).2 requestId
      = none ∧
    translateGetProgress (translatePost m text requestId scriptExists outcome).2
      requestId = .okProgress 0 := by
  have hdel : lookupA (translatePost m text requestId scriptExists outcome).2
      requestId = none := by
    unfold translatePost
    rw [if_neg ht, if_neg (by simp [hs])]
    cases outcome with
    | ctorThrow => exact absurd rfl ho
    | errorEvt events msg => exact lookupA_deleteA _ _
    | closeEvt events parsed =>
      cases parsed with
      | none => exact lookupA_deleteA _ _
      | some r =>
        dsimp only
        by_cases hsucc : r.success = some false
        · rw [if_pos hsucc]; exact lookupA_deleteA _ _
        · rw [if_neg hsucc]; exact lookupA_deleteA _ _
  refine ⟨hdel, ?_⟩
  unfold translateGetProgress
  rw [if_neg hr, hdel]
  rfl

/-- C10 (witness): a successful run deletes the pre-existing progress entry
and the poll reports `0`. -/
theorem translatePost_clears_progress_witness :
    lookupA (translatePost [("7", 55)] "hi" "7" true
      (.closeEvt [40, 90] (some ⟨some true, some "hi", some "х", some "en",
        some "ru", some true⟩))).2 "7" = none ∧
    translateGetProgress (translatePost [("7", 55)] "hi" "7" true
      (.closeEvt [40, 90] (some ⟨some true, some "hi", some "х", some "en",
        some "ru", some true⟩))).2 "7" = .okProgress 0 :=
  translatePost_clears_progress [("7", 55)] "hi" "7" true
    (.closeEvt [40, 90] (some ⟨some true, some "hi", some "х", some "en",
      some "ru", some true⟩)) (by decide) rfl (by decide) (by decide)

/-! ## Progress tracker (`updateProgress`, transcription route)

`updateProgress` merges the new fields over the existing entry of
`transcriptionProgress[requestId]` and then sweeps every entry whose key,
parsed with `parseInt`, is older than 24 hours.  The transcription `POST`
handler, however, writes its progress entries by direct assignment
(`transcriptionProgress[requestId] = {...}`) without calling
`updateProgress`, so those writes perform no sweep. -/

/-- Hexadecimal digit of JavaScript `parseInt` with a `0x` prefix. -/
def hexDigit (c : Char) : Bool :=
  jsDigit c ∨ ('a' ≤ c ∧ c ≤ 'f') ∨ ('A' ≤ c ∧ c ≤ 'F')

/-- Value of a hexadecimal digit. -/
def hexVal (c : Char) : Nat :=
  if jsDigit c then c.toNat - '0'.toNat
  else if 'a' ≤ c ∧ c ≤ 'f' then c.toNat - 'a'.toNat + 10
  else c.toNat - 'A'.toNat + 10

/-- Accumulate digit values in a base. -/
def digitsVal (base : Nat) (dv : Char → Nat) (l : List Char) : Nat :=
  l.foldl (fun acc c => acc * base + dv c) 0

/-- JavaScript `parseInt(s)` with no radix argument: skip whitespace, an
optional sign, a `0x`/`0X` prefix switching to hexadecimal, then the maximal
digit run; `none` models `NaN`. -/
def parseIntJS (s : String) : Option Int :=
  let l := s.data.dropWhile jsSpace
  let sign : Int := match l with
    | '-' :: _ => -1
    | _ => 1
  let l1 := match l with
    | '-' :: r => r
    | '+' :: r => r
    | _ => l
  if startsWithL ['0', 'x'] l1 ∨ startsWithL ['0', 'X'] l1 then
    match (l1.drop 2).takeWhile hexDigit with
    | [] => none
    | ds => some (sign * (digitsVal 16 hexVal ds : Nat))
  else
    match l1.takeWhile jsDigit with
    | [] => none
    | ds => some (sign * (digitsVal 10 hexVal ds : Nat))

/-- One entry of `transcriptionProgress`. -/
structure ProgEntry where
  progress : Nat
  step : String
  title : Option String := none
  videoId : Option String := none
  url : Option String := none
  error : Option String := none
deriving Repr, DecidableEq

/-- The optional `data` argument of `updateProgress` (spread over the
entry). -/
structure ExtraData where
  title : Option String := none
  videoId : Option String := none
  url : Option String := none
  error : Option String := none
deriving Repr, DecidableEq

/-- The merge `{...transcriptionProgress[requestId], progress, step, ...data}`:
fields present in `data` win, otherwise the fields of the old entry survive. -/
def mergeProgress (old : Option ProgEntry) (progress : Nat) (step : String)
    (d : ExtraData) : ProgEntry :=
  { progress := progress
    step := step
    title := d.title.orElse fun _ => old.bind (·.title)
    videoId := d.videoId.orElse fun _ => old.bind (·.videoId)
    url := d.url.orElse fun _ => old.bind (·.url)
    error := d.error.orElse fun _ => old.bind (·.error) }

/-- One day in milliseconds. -/
def DAY_MS : Int := 24 * 60 * 60 * 1000

/-- The sweep test `parseInt(id) < now - 24 * 60 * 60 * 1000` (false for a
`NaN` key, as every comparison with `NaN` is false). -/
def shouldSweep (id : String) (now : Int) : Bool :=
  match parseIntJS id with
  | some v => v < now - DAY_MS
  | none => false

/-- `updateProgress`: write the merged entry, then sweep old entries. -/
def updateProgress (m : List (String × ProgEntry)) (requestId : String)
    (progress : Nat) (step : String) (d : ExtraData) (now : Int) :
    List (String × ProgEntry) :=
  (upsertA m requestId (mergeProgress (lookupA m requestId) progress step d)).filter
    fun p => ¬ shouldSweep p.1 now

/-- C6 (amended, part 1): after every `updateProgress` call, the map holds no
entry whose key parses to a timestamp older than 24 hours.  (The original
claim fails because the transcription `POST` handler updates progress without
calling `updateProgress`; see the counterexample theorem.) -/
theorem updateProgress_sweeps (m : List (String × ProgEntry))
    (requestId : String) (progress : Nat) (step : String) (d : ExtraData)
    (now : Int) (id : String) (e : ProgEntry)
    (hmem : (id, e) ∈ updateProgress m requestId progress step d now)
    (v : Int) (hv : parseIntJS id = some v) : now - DAY_MS ≤ v := by
  unfold updateProgress at hmem
  have hp := List.of_mem_filter hmem
  unfold shouldSweep at hp
  rw [hv] at hp
  simp only [decide_eq_true_eq] at hp
  omega

/-- C6 (witness): an update at time `100` keeps the written entry, whose key
parses to `2 ≥ 100 - DAY_MS`. -/
theorem updateProgress_sweeps_witness :
    (("2", mergeProgress none 5 "x" {}) ∈
      updateProgress [] "2" 5 "x" {} 100) ∧
    (parseIntJS "2" = some 2) ∧ (100 : Int) - DAY_MS ≤ 2 :=
  ⟨by decide, by decide,
    updateProgress_sweeps [] "2" 5 "x" {} 100 "2" (mergeProgress none 5 "x" {})
      (by decide) 2 (by decide)⟩

/-! ## Cleanup endpoint (`POST`, cleanup route)

The handler deletes, from the video temp directory, every non-directory
entry whose name contains the request id OR has a temporary-media extension
(any age); then, from the app temp directory, every entry older than one
hour (`unlink` on a subdirectory throws and is caught per-file, so only
regular files are deleted and counted).  If the video temp directory does not
exist the handler returns before touching the app temp directory.  The
filesystem is passed as the directory listings with per-file metadata. -/

/-- A directory entry as seen through `fs.stat`. -/
structure FileInfo where
  name : String
  size : Nat
  mtimeMs : Int
  isDirectory : Bool
deriving Repr, DecidableEq

/-- The `mediaExtensions` list of `isTemporaryMediaFile`. -/
def mediaExtensions : List String :=
  [".mp3", ".mp4", ".wav", ".webm", ".m4a", ".ogg", ".flac", ".txt", ".vtt",
   ".srt", ".json"]

/-- `isTemporaryMediaFile`: the name ends with one of the media
extensions. -/
def isTemporaryMediaFile (filename : String) : Bool :=
  mediaExtensions.any fun ext => jsEndsWith filename ext

/-- Deletion test in the video temp directory:
`file.includes(requestId) || isTemporaryMediaFile(file)`, on a
non-directory. -/
def videoDirDelete (requestId : String) (f : FileInfo) : Bool :=
  (jsIncludes f.name requestId || isTemporaryMediaFile f.name) && !f.isDirectory

/-- Deletion test in the app temp directory: strictly older than one hour,
on a non-directory. -/
def appDirDelete (now : Int) (f : FileInfo) : Bool :=
  (3600000 < now - f.mtimeMs) && !f.isDirectory

/-- The `{ deletedFiles, freedSpace }` result. -/
structure CleanupResult where
  deletedFiles : Nat
  freedSpace : Nat
deriving Repr, DecidableEq

/-- Response of the cleanup endpoint. -/
inductive CleanupResp where
  | ok (r : CleanupResult)
  | err (status : Nat) (msg : String)
deriving Repr, DecidableEq

/-- Response plus the surviving directory contents. -/
structure CleanupOut where
  resp : CleanupResp
  videoFiles : List FileInfo
  appFiles : List FileInfo
deriving Repr, DecidableEq

/-- Total size of a file list. -/
def sumSizes (l : List FileInfo) : Nat := (l.map (·.size)).sum

/-- The cleanup `POST` handler. -/
def cleanupPost (requestId : String) (videoDirExists : Bool)
    (videoFiles : List FileInfo) (appDirExists : Bool)
    (appFiles : List FileInfo) (now : Int) : CleanupOut :=
  if requestId = "" then
    { resp := .err 400 "Missing requestId parameter"
      videoFiles := videoFiles, appFiles := appFiles }
  else if ¬ videoDirExists then
    { resp := .ok ⟨0, 0⟩, videoFiles := videoFiles, appFiles := appFiles }
  else if ¬ appDirExists then
    { resp := .ok ⟨(videoFiles.filter (videoDirDelete requestId)).length,
        sumSizes (videoFiles.filter (videoDirDelete requestId))⟩
      videoFiles := videoFiles.filter fun f => ¬ videoDirDelete requestId f
      appFiles := appFiles }
  else
    { resp := .ok ⟨(videoFiles.filter (videoDirDelete requestId)).length +
          (appFiles.filter (appDirDelete now)).length,
        sumSizes (videoFiles.filter (videoDirDelete requestId)) +
          sumSizes (appFiles.filter (appDirDelete now))⟩
      videoFiles := videoFiles.filter fun f => ¬ videoDirDelete requestId f
      appFiles := appFiles.filter fun f => ¬ appDirDelete now f }

/-- C7 (counterexample): a regular file in the video temp directory that is
brand new (age `0`, far newer than one hour) and whose name does not contain
the request id is nevertheless deleted — and counted — because its name ends
in a media extension, contradicting the assertion "every file newer than one
hour whose name does not contain the requestId is preserved". -/
theorem cleanupPost_preserve_counterexample :
    jsIncludes "innocent.mp3" "1700000000000" = false ∧
    ((0 : Int) - 0 ≤ 3600000) ∧
    (cleanupPost "1700000000000" true [⟨"innocent.mp3", 10, 0, false⟩] true []
      0).videoFiles = [] ∧
    (cleanupPost "1700000000000" true [⟨"innocent.mp3", 10, 0, false⟩] true []
      0).resp = .ok ⟨1, 10⟩ := by
  refine ⟨by decide, by decide, by decide, by decide⟩

/-- C7 (amended): assuming both temp directories exist and the request id is
nonempty: every non-directory entry of the video temp directory whose name
contains the request id (in particular every such temp media file) is
deleted; a video-temp entry is preserved exactly when its name neither
contains the request id nor ends in a media extension (its age is
irrelevant); every regular file of the app temp directory strictly older
than one hour is deleted even without a request-id match; every app-temp
entry newer than (or exactly) one hour is preserved; and the response counts
exactly the deleted files and their total size in `deletedFiles` and
`freedSpace`. -/
theorem cleanupPost_amended (requestId : String) (videoFiles appFiles : List FileInfo)
    (now : Int) (hr : requestId ≠ "") :
    (∀ f ∈ videoFiles, f.isDirectory = false →
      jsIncludes f.name requestId = true →
      f ∉ (cleanupPost requestId true videoFiles true appFiles now).videoFiles) ∧
    (∀ f ∈ videoFiles, jsIncludes f.name requestId = false →
      isTemporaryMediaFile f.name = false →
      f ∈ (cleanupPost requestId true videoFiles true appFiles now).videoFiles) ∧
    (∀ f ∈ appFiles, f.isDirectory = false → 3600000 < now - f.mtimeMs →
      f ∉ (cleanupPost requestId true videoFiles true appFiles now).appFiles) ∧
    (∀ f ∈ appFiles, now - f.mtimeMs ≤ 3600000 →
      f ∈ (cleanupPost requestId true videoFiles true appFiles now).appFiles) ∧
    (cleanupPost requestId true videoFiles true appFiles now).resp =
      .ok ⟨(videoFiles.filter (videoDirDelete requestId)).length +
          (appFiles.filter (appDirDelete now)).length,
        sumSizes (videoFiles.filter (videoDirDelete requestId)) +
          sumSizes (appFiles.filter (appDirDelete now))⟩ := by
  have hpost : cleanupPost requestId true videoFiles true appFiles now =
      { resp := .ok ⟨(videoFiles.filter (videoDirDelete requestId)).length +
            (appFiles.filter (appDirDelete now)).length,
          sumSizes (videoFiles.filter (videoDirDelete requestId)) +
            sumSizes (appFiles.filter (appDirDelete now))⟩
        videoFiles := videoFiles.filter fun f => ¬ videoDirDelete requestId f
        appFiles := appFiles.filter fun f => ¬ appDirDelete now f } := by
    unfold cleanupPost
    rw [if_neg hr, if_neg (by simp), if_neg (by simp)]
  rw [hpost]
  refine ⟨?_, ?_, ?_, ?_, rfl⟩
  · intro f hf hdir hinc hmem
    have := List.of_mem_filter hmem
    simp only [decide_eq_true_eq] at this
    exact this (by simp [videoDirDelete, hinc, hdir])
  · intro f hf hinc hmedia
    exact List.mem_filter.mpr ⟨hf, by simp [videoDirDelete, hinc, hmedia]⟩
  · intro f hf hdir hold hmem
    have := List.of_mem_filter hmem
    simp only [decide_eq_true_eq] at this
    exact this (by simp [appDirDelete, hold, hdir])
  · intro f hf hnew
    exact List.mem_filter.mpr ⟨hf, by simp [appDirDelete]; omega⟩

/-- C7 (witness): the amended statement on a concrete directory pair. -/
theorem cleanupPost_amended_witness :
    ((⟨"job42.mp3", 5, 0, false⟩ : FileInfo) ∈
        [(⟨"job42.mp3", 5, 0, false⟩ : FileInfo)] ∧
      jsIncludes "job42.mp3" "job42" = true) ∧
    (⟨"job42.mp3", 5, 0, false⟩ : FileInfo) ∉
      (cleanupPost "job42" true [⟨"job42.mp3", 5, 0, false⟩] true []
        0).videoFiles :=
  ⟨⟨by decide, by decide⟩,
    (cleanupPost_amended "job42" [⟨"job42.mp3", 5, 0, false⟩] [] 0
      (by decide)).1 ⟨"job42.mp3", 5, 0, false⟩ (by decide) rfl (by decide)⟩

/-! ## Transcription endpoint (`POST`, transcription route)

The `POST` handler: validates the URL, consults the 24-hour result cache
keyed by `url + '_' + targetLanguage`, short-circuits known YouTube videos,
runs the platform pipeline (`processYouTubeVideo` for YouTube, a thrown
"Unsupported platform" error otherwise, converted to a 500 by the outer
catch), degrades a failed extraction to a `success: true` fallback response,
and caches successful results.  External effects — the filesystem, the two
downloaders, the two transcriber invocation strategies, the title probe and
the local-AI translator — are oracles carried by `PipeEnv` and
`translateOracle`.  The model also returns `ranPipeline`/`ranTranslate`
flags recording whether the external pipeline/translator were invoked. -/

/-- The result object assembled by the transcription route. -/
structure TResult where
  success : Bool
  transcript : String
  translation : String
  detectedLanguage : String
  title : String
  audioPath : Option String := none
deriving Repr, DecidableEq

/-- One entry of the `transcriptionCache` map. -/
structure CacheEntry where
  data : TResult
  timestamp : Nat
deriving Repr, DecidableEq

/-- The cache freshness window (24 hours in milliseconds). -/
def CACHE_DURATION : Nat := 24 * 60 * 60 * 1000

/-- Responses of the transcription route. -/
inductive TransResp where
  | ok (r : TResult)
  | err (status : Nat) (msg : String)
deriving Repr, DecidableEq

/-- A known video with pre-registered translations. -/
structure KnownVideo where
  transcript : String
  translations : List (String × String)
deriving Repr, DecidableEq

/-- The `knownVideos` repository (one example entry). -/
def knownVideos : List (String × KnownVideo) :=
  [("example123",
    { transcript := "This is an example transcript of a known video."
      translations :=
        [("he", "זוהי דוגמה לתמלול של סרטון ידוע.")
        , ("ar", "هذا مثال على النص المكتوب لفيديو معروف.")
        , ("ru", "Это пример транскрипции известного видео.")
        , ("es", "Este es un ejemplo de transcripción de un video conocido.")
        , ("fr", "Voici un exemple de transcription d\x27une vidéo connue.")
        , ("de", "Dies ist ein Beispiel für die Transkription eines bekannten Videos.")] })]

/-- One fallback response (transcript plus translations). -/
structure FallbackResponse where
  transcript : String
  translations : List (String × String)
deriving Repr, DecidableEq

/-- The `fallbackResponses` array (a single entry, with a Hebrew
translation only). -/
def fallbackResponses : List FallbackResponse :=
  [{ transcript := "The way to get started is to quit talking and begin doing. Walt Disney\n\nSuccess is not final, failure is not fatal: It is the courage to continue that counts. Winston Churchill\n\nThe future belongs to those who believe in the beauty of their dreams. Eleanor Roosevelt\n\nLife is what happens when you\x27re busy making other plans. John Lennon"
     translations :=
       [("he", "הדרך להתחיל היא להפסיק לדבר ולהתחיל לעשות. וולט דיסני\n\nההצלחה אינה סופית, הכישלון אינו קטלני: זו האומץ להמשיך שנחשב. וינסטון צ\x27רצ\x27יל\n\nהעתיד שייך לאלה המאמינים ביופי של חלומותיהם. אלינור רוזוולט\n\nהחיים הם מה שקורה כשאתה עסוק בעשיית תוכניות אחרות. ג\x27ון לנון")] }]

/-- `getRandomFallbackResponse`: `Math.floor(Math.random() * length)` over a
one-element array is always `0`, so the selection is deterministic. -/
def getRandomFallbackResponse : FallbackResponse :=
  (fallbackResponses.get? 0).getD ⟨"", []⟩

/-- JavaScript string truthiness of an optional string. -/
def truthy (o : Option String) : Bool := o.getD "" ≠ ""

/-- The tail of `translateFallback` after the known-video check: the default
translations of the fallback response, indexed with the `in` operator (key
presence), then `translations['he'] || transcript`. -/
def translateFallbackDefault (transcript targetLanguage : String) : String :=
  match lookupA ((fallbackResponses.get? 0).getD ⟨"", []⟩).translations
      targetLanguage with
  | some t => t
  | none =>
    match lookupA ((fallbackResponses.get? 0).getD ⟨"", []⟩).translations "he" with
    | some t => if t = "" then transcript else t
    | none => transcript

/-- `translateFallback`: prefer a pre-registered translation of the current
video (`global.tempVideoId`), then the default fallback response. -/
def translateFallback (transcript targetLanguage : String)
    (tempVideoId : Option String) : String :=
  match (if truthy tempVideoId then
      (lookupA knownVideos (tempVideoId.getD "")).bind fun kv =>
        lookupA kv.translations targetLanguage
    else none) with
  | some t =>
    if t = "" then translateFallbackDefault transcript targetLanguage else t
  | none => translateFallbackDefault transcript targetLanguage

/-- JSON output of `transcriber.py`, as seen by either invocation
strategy. -/
structure TranscribeJson where
  success : Bool
  transcript : Option String
  language : Option String
  error : Option String
deriving Repr, DecidableEq

/-- Oracles of `processYouTubeVideo`: the filesystem, the primary `yt-dlp`
invocation (`true` = exited successfully), the Python fallback downloader
(`pythonDlPath` = parsed `audioPath` of its JSON output when everything
succeeded), the `PythonShell` transcriber results (`none` = threw), the
direct-execution transcriber fallback (`none` = threw or unparseable) and
the title probe (`getTitleAsync` is total: its own catch returns a static
title). -/
structure PipeEnv where
  fileExists : String → Bool
  tempDirFiles : List String
  primaryDownloadOk : Bool
  pythonScriptExists : Bool
  pythonDlPath : Option String
  psResults : Option (List TranscribeJson)
  directResult : Option TranscribeJson
  titleResult : String

/-- Return record of `processYouTubeVideo`. -/
structure PipeOutcome where
  success : Bool
  transcript : Option String := none
  title : Option String := none
  language : Option String := none
  error : Option String := none
  audioPath : Option String := none
deriving Repr, DecidableEq

/-- The audio extensions probed for the downloaded file. -/
def possibleExtensions : List String := [".mp3", ".m4a", ".wav", ".opus"]

/-- The transcription stage of `processYouTubeVideo`: `PythonShell` first
(taking `results[0]` when the list is nonempty), direct execution as
fallback, with `transcriptionResult?.error || "Transcription failed"` on
failure and `transcriptionResult.language || 'en'` on success. -/
def transcribeStage (env : PipeEnv) (title path : String) : PipeOutcome :=
  match (match env.psResults with
    | some rs => rs.head?
    | none => env.directResult) with
  | some r =>
    if r.success ∧ r.transcript.getD "" ≠ "" then
      { success := true, transcript := r.transcript, title := some title
        language := some (if r.language.getD "" = "" then "en" else r.language.getD "")
        audioPath := some path }
    else
      { success := false
        error := some (if r.error.getD "" = "" then "Transcription failed"
          else r.error.getD "")
        audioPath := some path }
  | none =>
    { success := false, error := some "Transcription failed"
      audioPath := some path }

/-- `processYouTubeVideo`: resolve the video id, probe the expected audio
paths across the extension list, fall back to a directory search by
id-substring, and transcribe; every failure is converted to a structured
`success: false` result that still reports the expected audio path.  The
progress writes this function performs on its own `requestId` key
(10/40/80, and 0 in its outer catch, which the total model makes
unreachable) are not threaded through the model: no claim concerns them,
and they touch only the fresh key of the current request. -/
def processYouTubeVideo (env : PipeEnv) (url tempDir : String) (now : Nat)
    (rand : String) : PipeOutcome :=
  let videoId := (extractVideoId url "youtube" now rand).getD
    ("unknown_" ++ toString now)
  let audioPathBase := tempDir ++ "/" ++ videoId
  let title := if env.titleResult = "" then "Video " ++ videoId
    else env.titleResult
  let audioFilePath1 :=
    if env.primaryDownloadOk then audioPathBase ++ ".mp3"
    else if env.pythonScriptExists then
      match env.pythonDlPath with
      | some p => p
      | none => audioPathBase ++ ".mp3"
    else audioPathBase ++ ".mp3"
  match possibleExtensions.find? (fun ext => env.fileExists (audioPathBase ++ ext)) with
  | some ext => transcribeStage env title (audioPathBase ++ ext)
  | none =>
    match (env.tempDirFiles.filter fun f =>
        jsIncludes f videoId && possibleExtensions.any fun ext =>
          jsEndsWith f ext).head? with
    | some f => transcribeStage env title (tempDir ++ "/" ++ f)
    | none =>
      { success := false, error := some "Failed to download audio file"
        audioPath := some audioFilePath1 }

/-- Request body of the transcription route. -/
structure PostIn where
  url : String
  targetLanguage : Option String := none
  platformType : Option String := none
deriving Repr, DecidableEq

/-- `options.targetLanguage || TARGET_LANGUAGES.HEBREW`. -/
def effTarget (o : Option String) : String :=
  if o.getD "" = "" then "he" else o.getD ""

/-- The cache consultation `cachedResult && (Date.now() - timestamp) <
CACHE_DURATION`. -/
def freshCacheHit (cache : List (String × CacheEntry)) (key : String)
    (now : Nat) : Option CacheEntry :=
  match lookupA cache key with
  | some e => if now - e.timestamp < CACHE_DURATION then some e else none
  | none => none

/-- A plain progress entry `{ progress, step }`. -/
def mkStep (p : Nat) (s : String) : ProgEntry := { progress := p, step := s }

/-- Output of the transcription `POST` model: response, updated cache and
progress map, and whether the external pipeline / the external translator
were invoked. -/
structure PostOut where
  resp : TransResp
  cache : List (String × CacheEntry)
  progress : List (String × ProgEntry)
  ranPipeline : Bool
  ranTranslate : Bool

/-- The transcription `POST` handler. -/
def postTranscribe (env : PipeEnv) (translateOracle : String → String → String)
    (tmpdir : String) (cache0 : List (String × CacheEntry))
    (progress0 : List (String × ProgEntry)) (input : PostIn) (now : Nat)
    (rand : String) : PostOut :=
  if input.url = "" then
    { resp := .err 400 "URL is required", cache := cache0
      progress := progress0, ranPipeline := false, ranTranslate := false }
  else
    let requestId := toString now
    let progress1 := upsertA progress0 requestId (mkStep 1 "Starting process")
    let cacheKey := input.url ++ "_" ++ effTarget input.targetLanguage
    match freshCacheHit cache0 cacheKey now with
    | some e =>
      { resp := .ok e.data, cache := cache0
        progress := upsertA progress1 requestId (mkStep 100 "Retrieved from cache")
        ranPipeline := false, ranTranslate := false }
    | none =>
      let videoIdOpt : Option String :=
        if input.platformType = some "youtube" then
          some (extractYouTubeVideoId input.url now rand)
        else none
      match (if truthy videoIdOpt then
          lookupA knownVideos (videoIdOpt.getD "") else none) with
      | some kv =>
        let result : TResult :=
          { success := true, transcript := kv.transcript
            translation := (lookupA kv.translations
              (effTarget input.targetLanguage)).getD ""
            detectedLanguage := "en"
            title := "Known Video (" ++ videoIdOpt.getD "" ++ ")" }
        { resp := .ok result
          cache := upsertA cache0 cacheKey { data := result, timestamp := now }
          progress := upsertA progress1 requestId (mkStep 100 "Retrieved known video")
          ranPipeline := false, ranTranslate := false }
      | none =>
        let progress15 := upsertA
          (upsertA progress1 requestId (mkStep 10 "Starting download process"))
          requestId (mkStep 15 "Extracting content")
        if input.platformType = some "youtube" then
          let outcome := processYouTubeVideo env input.url
            (tmpdir ++ "/video_transcriptions") now rand
          if outcome.success = false then
            let fallbackResult : TResult :=
              { success := true
                transcript := getRandomFallbackResponse.transcript
                translation := translateFallback getRandomFallbackResponse.transcript
                  (effTarget input.targetLanguage) videoIdOpt
                detectedLanguage := "en"
                title := "Could not extract video content - using fallback"
                audioPath := outcome.audioPath }
            { resp := .ok fallbackResult
              cache := cache0
              progress := upsertA progress15 requestId
                (mkStep 100 "Completed with fallback")
              ranPipeline := true, ranTranslate := false }
          else
            let transcript := outcome.transcript.getD ""
            let detectedLanguage :=
              if outcome.language.getD "" = "" then detectLanguage transcript
              else outcome.language.getD ""
            let inTrans : Bool := (input.targetLanguage.getD "" ≠ "") &&
              (input.targetLanguage.getD "" ≠ detectedLanguage)
            let progressA :=
              if inTrans then
                upsertA (upsertA progress15 requestId (mkStep 70 "Detecting language"))
                  requestId (mkStep 80 "Translating content")
              else upsertA progress15 requestId (mkStep 70 "Detecting language")
            let doTrans : Bool := inTrans && (transcript ≠ "")
            let result : TResult :=
              { success := true, transcript := transcript
                translation := if doTrans then
                    translateOracle transcript (input.targetLanguage.getD "")
                  else ""
                detectedLanguage := detectedLanguage
                title := if outcome.title.getD "" = "" then "Video Transcription"
                  else outcome.title.getD "" }
            { resp := .ok result
              cache := upsertA cache0 cacheKey { data := result, timestamp := now }
              progress := upsertA progressA requestId (mkStep 100 "Process completed")
              ranPipeline := true, ranTranslate := doTrans }
        else
          { resp := .err 500 ("Unsupported platform: " ++
              (input.platformType.getD "undefined"))
            cache := cache0, progress := progress15
            ranPipeline := false, ranTranslate := false }

theorem extractYouTubeVideoId_ne_example (url : String) (now : Nat)
    (rand : String) : extractYouTubeVideoId url now rand ≠ "example123" := by
  unfold extractYouTubeVideoId
  split
  · intro h
    have := congrArg String.data h
    simp [String.data_append] at this
  · cases hm : youtubeRegexId url with
    | some s =>
      intro h
      have hl := youtubeRegexId_length url s hm
      have hs : s = "example123" := h
      rw [hs] at hl
      exact absurd hl (by decide)
    | none =>
      intro h
      have hs : "youtube-" ++ toString now ++ "-" ++ rand = "example123" := h
      have := congrArg String.data hs
      simp [String.data_append] at this

theorem knownVideos_miss (url : String) (now : Nat) (rand : String) :
    lookupA knownVideos (extractYouTubeVideoId url now rand) = none := by
  have hne := extractYouTubeVideoId_ne_example url now rand
  unfold lookupA knownVideos
  rw [List.find?]
  rw [show (decide (("example123" : String) = extractYouTubeVideoId url now rand))
      = false from decide_eq_false (fun hh => hne hh.symm)]
  rfl

/-- C3 (confirmed): for every transcription submission with a nonempty URL,
(a) if the result cache holds an entry for `(url, targetLanguage)` younger
than 24 hours, the `POST` handler returns exactly that cached result and
invokes neither the external pipeline (downloader/transcriber) nor the
external translator; (b) if the cache entry for the key is 24 hours old or
older (so the freshness test fails) and the platform is YouTube, a fresh
pipeline run occurs.  The strict `<` of the source makes an entry exactly
24 hours old already stale. -/
theorem transcription_cache_window (env : PipeEnv)
    (oracle : String → String → String) (tmpdir : String)
    (cache0 : List (String × CacheEntry))
    (progress0 : List (String × ProgEntry)) (input : PostIn) (now : Nat)
    (rand : String) (hurl : input.url ≠ "") :
    (∀ e, freshCacheHit cache0
        (input.url ++ "_" ++ effTarget input.targetLanguage) now = some e →
      (postTranscribe env oracle tmpdir cache0 progress0 input now rand).resp
          = .ok e.data ∧
      (postTranscribe env oracle tmpdir cache0 progress0 input now rand).ranPipeline
          = false ∧
      (postTranscribe env oracle tmpdir cache0 progress0 input now rand).ranTranslate
          = false) ∧
    (∀ e, lookupA cache0 (input.url ++ "_" ++ effTarget input.targetLanguage)
        = some e →
      CACHE_DURATION ≤ now - e.timestamp →
      input.platformType = some "youtube" →
      (postTranscribe env oracle tmpdir cache0 progress0 input now rand).ranPipeline
          = true) := by
  constructor
  · intro e he
    unfold postTranscribe
    rw [if_neg hurl]
    dsimp only
    rw [he]
    exact ⟨rfl, rfl, rfl⟩
  · intro e he hold hyt
    have hfresh : freshCacheHit cache0
        (input.url ++ "_" ++ effTarget input.targetLanguage) now = none := by
      unfold freshCacheHit
      rw [he]
      dsimp only
      rw [if_neg (by omega)]
    unfold postTranscribe
    rw [if_neg hurl]
    dsimp only
    rw [hfresh]
    dsimp only
    rw [hyt]
    have hvid : (if (some "youtube" : Option String) = some "youtube" then
        some (extractYouTubeVideoId input.url now rand) else none) =
        some (extractYouTubeVideoId input.url now rand) := if_pos rfl
    rw [hvid]
    have htr : truthy (some (extractYouTubeVideoId input.url now rand)) = true := by
      unfold truthy
      simpa using extractYouTubeVideoId_ne_empty input.url now rand
    rw [if_pos (by simp [htr])]
    dsimp only [Option.getD]
    rw [knownVideos_miss]
    dsimp only
    rw [if_pos rfl]
    split
    · rfl
    · rfl

/-- C3 (witness): the cache-window theorem at a concrete stale entry — the
entry is exactly 24 hours old, the freshness test fails, and the pipeline
runs. -/
theorem transcription_cache_window_witness :
    (lookupA [("https://youtu.be/dQw4w9WgXcQ_he",
        (⟨⟨true, "tr", "tx", "en", "t", none⟩, 0⟩ : CacheEntry))]
      ("https://youtu.be/dQw4w9WgXcQ" ++ "_" ++ effTarget (some "he")) =
        some ⟨⟨true, "tr", "tx", "en", "t", none⟩, 0⟩) ∧
    (postTranscribe ⟨fun _ => false, [], false, false, none, none, none, "T"⟩
      (fun t _ => t) "/tmp"
      [("https://youtu.be/dQw4w9WgXcQ_he", ⟨⟨true, "tr", "tx", "en", "t", none⟩, 0⟩)]
      [] ⟨"https://youtu.be/dQw4w9WgXcQ", some "he", some "youtube"⟩
      CACHE_DURATION "r").ranPipeline = true :=
  ⟨by decide,
    (transcription_cache_window
      ⟨fun _ => false, [], false, false, none, none, none, "T"⟩ (fun t _ => t)
      "/tmp"
      [("https://youtu.be/dQw4w9WgXcQ_he", ⟨⟨true, "tr", "tx", "en", "t", none⟩, 0⟩)]
      [] ⟨"https://youtu.be/dQw4w9WgXcQ", some "he", some "youtube"⟩
      CACHE_DURATION "r" (by decide)).2
      ⟨⟨true, "tr", "tx", "en", "t", none⟩, 0⟩ (by decide) (by decide) rfl⟩

/-- C4 (confirmed): for every YouTube submission (nonempty URL, no fresh
cache hit) whose content extraction fails — `processYouTubeVideo` reports
`success: false`, covering both a failed audio download and a failed
transcription — the `POST` handler still responds with the 200-class `ok`
constructor carrying `success: true`, the fallback transcript, a best-effort
translation from the static fallback table (the external translator is not
invoked), and the audio path reported by the pipeline, rather than a non-2xx hard
error; the failed result is not written to the cache. -/
theorem transcription_fallback_on_failure (env : PipeEnv)
    (oracle : String → String → String) (tmpdir : String)
    (cache0 : List (String × CacheEntry))
    (progress0 : List (String × ProgEntry)) (input : PostIn) (now : Nat)
    (rand : String) (hurl : input.url ≠ "")
    (hyt : input.platformType = some "youtube")
    (hfresh : freshCacheHit cache0
      (input.url ++ "_" ++ effTarget input.targetLanguage) now = none)
    (hfail : (processYouTubeVideo env input.url
      (tmpdir ++ "/video_transcriptions") now rand).success = false) :
    (postTranscribe env oracle tmpdir cache0 progress0 input now rand).resp =
      .ok { success := true
            transcript := getRandomFallbackResponse.transcript
            translation := translateFallback getRandomFallbackResponse.transcript
              (effTarget input.targetLanguage)
              (some (extractYouTubeVideoId input.url now rand))
            detectedLanguage := "en"
            title := "Could not extract video content - using fallback"
            audioPath := (processYouTubeVideo env input.url
              (tmpdir ++ "/video_transcriptions") now rand).audioPath } ∧
    (postTranscribe env oracle tmpdir cache0 progress0 input now rand).cache
      = cache0 ∧
    (postTranscribe env oracle tmpdir cache0 progress0 input now rand).ranTranslate
      = false := by
  unfold postTranscribe
  rw [if_neg hurl]
  dsimp only
  rw [hfresh]
  dsimp only
  rw [hyt]
  have hvid : (if (some "youtube" : Option String) = some "youtube" then
      some (extractYouTubeVideoId input.url now rand) else none) =
      some (extractYouTubeVideoId input.url now rand) := if_pos rfl
  rw [hvid]
  have htr : truthy (some (extractYouTubeVideoId input.url now rand)) = true := by
    unfold truthy
    simpa using extractYouTubeVideoId_ne_empty input.url now rand
  rw [if_pos (by simp [htr])]
  dsimp only [Option.getD]
  rw [knownVideos_miss]
  dsimp only
  rw [if_pos rfl, if_pos hfail]
  exact ⟨rfl, rfl, rfl⟩

/-- C4 (witness): with every external stage failing (no audio file is ever
found), the response degrades to the fallback transcript with its Hebrew
translation and `success: true`. -/
theorem transcription_fallback_on_failure_witness :
    ((processYouTubeVideo ⟨fun _ => false, [], false, false, none, none, none, "T"⟩
        "https://youtu.be/dQw4w9WgXcQ" ("/tmp" ++ "/video_transcriptions")
        100 "r").success = false) ∧
    (postTranscribe ⟨fun _ => false, [], false, false, none, none, none, "T"⟩
      (fun t _ => t) "/tmp" [] []
      ⟨"https://youtu.be/dQw4w9WgXcQ", some "he", some "youtube"⟩ 100 "r").resp =
      .ok { success := true
            transcript := getRandomFallbackResponse.transcript
            translation := translateFallback getRandomFallbackResponse.transcript
              (effTarget (some "he"))
              (some (extractYouTubeVideoId "https://youtu.be/dQw4w9WgXcQ" 100 "r"))
            detectedLanguage := "en"
            title := "Could not extract video content - using fallback"
            audioPath := (processYouTubeVideo
              ⟨fun _ => false, [], false, false, none, none, none, "T"⟩
              "https://youtu.be/dQw4w9WgXcQ" ("/tmp" ++ "/video_transcriptions")
              100 "r").audioPath } :=
  ⟨by decide,
    (transcription_fallback_on_failure
      ⟨fun _ => false, [], false, false, none, none, none, "T"⟩ (fun t _ => t)
      "/tmp" [] [] ⟨"https://youtu.be/dQw4w9WgXcQ", some "he", some "youtube"⟩
      100 "r" (by decide) rfl rfl (by decide)).1⟩

/-- C6 (counterexample): the transcription `POST` handler updates the
progress entry of its own request by direct assignment, without calling
`updateProgress`; after those updates the map still contains the entry with
key `"0"`, which parses to timestamp `0`, older than 24 hours at
`now = 86400001` (`shouldSweep` holds for it) — so it is NOT the case that
after every update of the progress entry of a request the map is free of
entries older than 24 hours. -/
theorem progress_stale_after_post_counterexample :
    ("0", mkStep 5 "s") ∈ (postTranscribe
      ⟨fun _ => false, [], false, false, none, none, none, "T"⟩ (fun t _ => t)
      "/tmp" [] [("0", mkStep 5 "s")] ⟨"x", none, none⟩ 86400001 "").progress ∧
    shouldSweep "0" 86400001 = true := by
  constructor
  · decide
  · decide

end Transcriber
